import Mathlib

/-!
# NavaCode-Lang: shallow embedding and verification

A shallow embedding of the NavaCode-Lang front end and interpreter
(`src/lexer.rs` token model, `src/ast/*`, `src/types.rs`, `src/parser.rs`,
`src/symbols_table.rs`, `src/resolver.rs`, `src/interpreter.rs`,
`src/interpreter/builtin.rs`), together with theorems settling the spec
claims about operator typing, parsing, error recovery, name resolution and
runtime evaluation.

Conventions:
* Rust `i64` values are modelled as `Int` (the programs under study stay far
  from the 64-bit boundaries).
* Rust `HashMap<String, V>` is modelled as the function space
  `String → Option V` (insert = pointwise update, get = application).
* Rust panics (`report_error`, `unwrap`, `expect`) are modelled as explicit
  error outcomes.
* Loops and recursive function calls are driven by an explicit fuel
  parameter; running out of fuel is a distinguished outcome that never
  occurs in the concrete runs below.
-/

namespace NavaCode

/-- Position of a token in the source text (`lexer.rs`, `TokenPosition`). -/
structure TokenPosition where
  line : Nat
  column : Nat
deriving DecidableEq

/-- Modelled from the spec: `src/lexer.rs` as shipped carries only a start
`TokenPosition`, while the parser, diagnostics and resolver consume a
`TextSpan` with a `union` operation whose definition is not under `src/`.
The spec (§3) describes the span as `(start-line, start-col, end-line,
end-col)`; `union` of two spans takes the start of the first and the end of
the second (the spans of composite AST nodes are unions of their
children's). -/
structure TextSpan where
  startPos : TokenPosition
  endPos : TokenPosition
deriving DecidableEq

/-- Modelled from the spec: span union (see `TextSpan`). -/
def TextSpan.union (a b : TextSpan) : TextSpan :=
  { startPos := a.startPos, endPos := b.endPos }

/-- Token kinds (`lexer.rs` `TokenKind`, plus the keyword kinds referenced by
`parser.rs`: `while`/`for`/`do`/`from`/`step`/`define`/`function`/`with`/
`as`/`return` and the comma, which the shipped `lexer.rs` snapshot
predates). -/
inductive TokenKind where
  | number
  | letKeyword
  | beKeyword
  | andKeyword
  | orKeyword
  | notKeyword
  | setKeyword
  | toKeyword
  | ifKeyword
  | thenKeyword
  | endKeyword
  | elseKeyword
  | trueKeyword
  | falseKeyword
  | whileKeyword
  | forKeyword
  | doKeyword
  | fromKeyword
  | stepKeyword
  | defineKeyword
  | functionKeyword
  | withKeyword
  | asKeyword
  | returnKeyword
  | plus
  | minus
  | star
  | slash
  | percent
  | equalEqual
  | notEqual
  | lessThan
  | greaterThan
  | lessThanOrEqual
  | greaterThanOrEqual
  | bang
  | leftParen
  | rightParen
  | comma
  | identifier
  | unknown
  | endOfFile
deriving DecidableEq

/-- A lexical token (`lexer.rs` `Token`): kind, literal text and span. -/
structure Token where
  kind : TokenKind
  value : String
  span : TextSpan
deriving DecidableEq

/-- Binary operators (`ast/expression.rs` `BinaryOperator`). -/
inductive BinaryOperator where
  | add
  | subtract
  | multiply
  | divide
  | modulus
  | equal
  | notEqual
  | lessThan
  | greaterThan
  | lessThanOrEqual
  | greaterThanOrEqual
  | and
  | or
deriving DecidableEq

/-- Unary operators (`ast/expression.rs` `UnaryOperator`). -/
inductive UnaryOperator where
  | negate
  | not
deriving DecidableEq

/-- `BinaryOperator::precedence` (`ast/expression.rs`). -/
def BinaryOperator.precedence : BinaryOperator → Nat
  | .or => 0
  | .and => 1
  | .equal | .notEqual | .lessThan | .greaterThan
  | .lessThanOrEqual | .greaterThanOrEqual => 2
  | .add | .subtract => 3
  | .multiply | .divide | .modulus => 4

/-- `TryFrom<TokenKind> for BinaryOperator` (`ast/expression.rs`). -/
def BinaryOperator.tryFromKind : TokenKind → Option BinaryOperator
  | .plus => some .add
  | .minus => some .subtract
  | .star => some .multiply
  | .slash => some .divide
  | .percent => some .modulus
  | .equalEqual => some .equal
  | .notEqual => some .notEqual
  | .lessThan => some .lessThan
  | .greaterThan => some .greaterThan
  | .lessThanOrEqual => some .lessThanOrEqual
  | .greaterThanOrEqual => some .greaterThanOrEqual
  | .andKeyword => some .and
  | .orKeyword => some .or
  | _ => none

/-- `TryFrom<TokenKind> for UnaryOperator` (`ast/expression.rs`). -/
def UnaryOperator.tryFromKind : TokenKind → Option UnaryOperator
  | .minus => some .negate
  | .notKeyword | .bang => some .not
  | _ => none

/-- Static types (`types.rs` `Type`). -/
inductive Ty where
  | int
  | bool
  | unresolved
deriving DecidableEq

/-- `types.rs` `resolve_binary_operation_type`: the fixed operator-type
table keyed by (left type, right type, operator).  Match arms are in source
order; note that the `Equal` arm and the `NotEqual`/relational arms take
wildcard operand patterns. -/
def resolve_binary_operation_type (left right : Ty) (operator : BinaryOperator) : Ty :=
  match left, right, operator with
  | .int, .int, .add => .int
  | .int, .int, .subtract => .int
  | .int, .int, .multiply => .int
  | .int, .int, .divide => .int
  | .int, .int, .modulus => .int
  | .bool, .bool, .and => .bool
  | .bool, .bool, .or => .bool
  | _, _, .equal => .bool
  | _, _, .notEqual => .int
  | _, _, .lessThan => .int
  | _, _, .greaterThan => .int
  | _, _, .lessThanOrEqual => .int
  | _, _, .greaterThanOrEqual => .int
  | _, _, _ => .unresolved

/-- `types.rs` `resolve_unary_operation_type`. -/
def resolve_unary_operation_type (operand : Ty) (operator : UnaryOperator) : Ty :=
  match operand, operator with
  | .int, .negate => .int
  | .bool, .not => .bool
  | _, _ => .unresolved

/-- Literal payloads (`ast/expression.rs` `Literal`). -/
inductive Literal where
  | number (n : Int)
  | boolean (b : Bool)
deriving DecidableEq

/-- Expressions (`ast/expression.rs` `Expression`; `FunctionCallData` is
inlined as the two fields of the `functionCall` constructor). -/
inductive Expression where
  | literal (value : Literal) (span : TextSpan)
  | variableRef (t : Token)
  | binaryOperation (left : Expression) (operator : BinaryOperator) (right : Expression)
  | unaryOperation (operator : UnaryOperator) (operand : Expression)
  | grouped (inner : Expression)
  | functionCall (functionName : Token) (arguments : List Expression)

/-- `Expression::span` (`ast/expression.rs`). -/
def Expression.span : Expression → TextSpan
  | .literal _ sp => sp
  | .variableRef t => t.span
  | .binaryOperation l _ r => l.span.union r.span
  | .unaryOperation _ operand => operand.span
  | .grouped inner => inner.span
  | .functionCall name _ => name.span

/-- Statements (`ast/statement.rs` `Statement`; `IfThenBranch` is inlined
as the first two fields of `ifStatement`, and `ReturnStatement` is the
variant built by `Parser::parse_return_statement`). -/
inductive Statement where
  | variableDeclaration (name : Token) (value : Expression)
  | variableAssignment (name : Token) (value : Expression)
  | ifStatement (condition : Expression) (thenBranch : Statement)
      (elseBranch : Option Statement)
  | blockStatement (statements : List Statement)
  | whileStatement (condition : Expression) (body : Statement)
  | forStatement (loopVar : Token) (start : Expression) (stop : Expression)
      (step : Option Expression) (body : Statement)
  | functionDefinition (name : Token) (arguments : List Token) (body : Statement)
  | functionCall (functionName : Token) (arguments : List Expression)
  | returnStatement (span : TextSpan) (expression : Option Expression)

/-- Block kinds (`lib.rs` `BlockType`). -/
inductive BlockType where
  | ifBlock
  | whileBlock
  | forBlock
  | elseBlock
  | functionBlock
deriving DecidableEq

/-- Structured diagnostics (`diagnostic.rs`): each constructor mirrors one
`DiagnosticError` variant together with the span bound by the corresponding
`Diagnostic::…` smart constructor. -/
inductive Diagnostic where
  | unexpectedToken (expected : List TokenKind) (found : String) (span : TextSpan)
  | unexpectedElseAfterEnd (span : TextSpan)
  | unexpectedEndToken (span : TextSpan)
  | unexpectedElseToken (span : TextSpan)
  | variableRedefinition (identifier : String) (span : TextSpan)
  | undefinedVariable (identifier : String) (span : TextSpan)
  | functionArgumentsMismatch (functionName : String) (expected found : Nat)
      (span : TextSpan)
  | undefinedFunction (functionName : String) (span : TextSpan)
  | returnOutsideFunction (span : TextSpan)
  | variableTypeMismatch (identifier : String) (expectedType foundType : Ty)
      (span : TextSpan)
  | expressionTypeMismatch (expectedType foundType : Ty) (span : TextSpan)
  | incompatibleBinaryOperation (leftType rightType : Ty)
      (operator : BinaryOperator) (span : TextSpan)
  | incompatibleUnaryOperation (operandType : Ty) (operator : UnaryOperator)
      (span : TextSpan)
deriving DecidableEq

/-- `Diagnostic::unexpected_token` (extracts text and span from the found
token). -/
def Diagnostic.unexpected_token (expected : List TokenKind) (found : Token) :
    Diagnostic :=
  .unexpectedToken expected found.value found.span

/-- `Diagnostic::variable_redefinition`. -/
def Diagnostic.variable_redefinition (v : Token) : Diagnostic :=
  .variableRedefinition v.value v.span

/-- `Diagnostic::undefined_variable`. -/
def Diagnostic.undefined_variable (v : Token) : Diagnostic :=
  .undefinedVariable v.value v.span

/-- `Diagnostic::function_arguments_mismatch`. -/
def Diagnostic.function_arguments_mismatch (functionName : Token)
    (expected found : Nat) : Diagnostic :=
  .functionArgumentsMismatch functionName.value expected found functionName.span

/-- `Diagnostic::undefined_function`. -/
def Diagnostic.undefined_function (functionName : Token) : Diagnostic :=
  .undefinedFunction functionName.value functionName.span

/-- `Diagnostic::variable_type_mismatch`. -/
def Diagnostic.variable_type_mismatch (v : Token)
    (expectedType foundType : Ty) : Diagnostic :=
  .variableTypeMismatch v.value expectedType foundType v.span

end NavaCode

namespace NavaCode

/-! ## Runtime values and builtin operators (`interpreter.rs`, `interpreter/builtin.rs`) -/

/-- Runtime values (`interpreter.rs` `RuntimeValue`): `Number(i64)` is
modelled with `Int`. -/
inductive RuntimeValue where
  | number (n : Int)
  | bool (b : Bool)
deriving DecidableEq

/-- Runtime errors (`interpreter.rs` `RuntimeError`). -/
inductive RuntimeError where
  | variableNotFound (name : String)
  | invalidOperation
  | divisionByZero
  | invalidCondition
deriving DecidableEq

namespace builtin

/-- `builtin::add`. -/
def add : RuntimeValue → RuntimeValue → Except RuntimeError RuntimeValue
  | .number l, .number r => .ok (.number (l + r))
  | _, _ => .error .invalidOperation

/-- `builtin::sub`. -/
def sub : RuntimeValue → RuntimeValue → Except RuntimeError RuntimeValue
  | .number l, .number r => .ok (.number (l - r))
  | _, _ => .error .invalidOperation

/-- `builtin::mul`. -/
def mul : RuntimeValue → RuntimeValue → Except RuntimeError RuntimeValue
  | .number l, .number r => .ok (.number (l * r))
  | _, _ => .error .invalidOperation

/-- `builtin::div`: division by zero is flagged, otherwise the `i64`
quotient (truncation toward zero, `Int.tdiv`) is produced. -/
def div : RuntimeValue → RuntimeValue → Except RuntimeError RuntimeValue
  | .number l, .number r =>
      if r = 0 then .error .divisionByZero else .ok (.number (Int.tdiv l r))
  | _, _ => .error .invalidOperation

/-- Modelled from the spec: `interpreter.rs` registers
`BinaryOperator::Modulus ↦ builtin::modulus` in its operator table, but the
shipped `builtin.rs` snapshot predates the `modulus` function.  The spec
(§4.5) lists it among the arithmetic native functions; it is modelled like
the other arithmetic builtins (numbers only, divisor 0 flagged, `i64`
remainder = `Int.tmod`). -/
def modulus : RuntimeValue → RuntimeValue → Except RuntimeError RuntimeValue
  | .number l, .number r =>
      if r = 0 then .error .divisionByZero else .ok (.number (Int.tmod l r))
  | _, _ => .error .invalidOperation

/-- `builtin::eq`: equality accepts two numbers or two booleans. -/
def eq : RuntimeValue → RuntimeValue → Except RuntimeError RuntimeValue
  | .number l, .number r => .ok (.bool (l = r))
  | .bool l, .bool r => .ok (.bool (l = r))
  | _, _ => .error .invalidOperation

/-- `builtin::gt`. -/
def gt : RuntimeValue → RuntimeValue → Except RuntimeError RuntimeValue
  | .number l, .number r => .ok (.bool (l > r))
  | _, _ => .error .invalidOperation

/-- `builtin::gt_eq`. -/
def gt_eq : RuntimeValue → RuntimeValue → Except RuntimeError RuntimeValue
  | .number l, .number r => .ok (.bool (l ≥ r))
  | _, _ => .error .invalidOperation

/-- `builtin::lt`. -/
def lt : RuntimeValue → RuntimeValue → Except RuntimeError RuntimeValue
  | .number l, .number r => .ok (.bool (l < r))
  | _, _ => .error .invalidOperation

/-- `builtin::lt_eq`. -/
def lt_eq : RuntimeValue → RuntimeValue → Except RuntimeError RuntimeValue
  | .number l, .number r => .ok (.bool (l ≤ r))
  | _, _ => .error .invalidOperation

/-- `builtin::not_eq`: inequality accepts only two numbers. -/
def not_eq : RuntimeValue → RuntimeValue → Except RuntimeError RuntimeValue
  | .number l, .number r => .ok (.bool (l ≠ r))
  | _, _ => .error .invalidOperation

/-- `builtin::and`. -/
def and : RuntimeValue → RuntimeValue → Except RuntimeError RuntimeValue
  | .bool l, .bool r => .ok (.bool (l && r))
  | _, _ => .error .invalidOperation

/-- `builtin::or`. -/
def or : RuntimeValue → RuntimeValue → Except RuntimeError RuntimeValue
  | .bool l, .bool r => .ok (.bool (l || r))
  | _, _ => .error .invalidOperation

/-- `builtin::negate`. -/
def negate : RuntimeValue → Except RuntimeError RuntimeValue
  | .number v => .ok (.number (-v))
  | _ => .error .invalidOperation

/-- `builtin::not`. -/
def not : RuntimeValue → Except RuntimeError RuntimeValue
  | .bool v => .ok (.bool (!v))
  | _ => .error .invalidOperation

end builtin

/-- `interpreter.rs` `type RuntimeBinaryOperator`. -/
def RuntimeBinaryOperator : Type :=
  RuntimeValue → RuntimeValue → Except RuntimeError RuntimeValue

/-- `interpreter.rs` `type RuntimeUnaryOperator`. -/
def RuntimeUnaryOperator : Type :=
  RuntimeValue → Except RuntimeError RuntimeValue

/-- The static operator table `BINARY_OPERATORS` (`interpreter.rs`). -/
def BINARY_OPERATORS : List (BinaryOperator × RuntimeBinaryOperator) :=
  [(.add, builtin.add),
   (.subtract, builtin.sub),
   (.multiply, builtin.mul),
   (.divide, builtin.div),
   (.modulus, builtin.modulus),
   (.equal, builtin.eq),
   (.notEqual, builtin.not_eq),
   (.greaterThan, builtin.gt),
   (.greaterThanOrEqual, builtin.gt_eq),
   (.lessThan, builtin.lt),
   (.lessThanOrEqual, builtin.lt_eq),
   (.and, builtin.and),
   (.or, builtin.or)]

/-- The static operator table `UNARY_OPERATORS` (`interpreter.rs`). -/
def UNARY_OPERATORS : List (UnaryOperator × RuntimeUnaryOperator) :=
  [(.negate, builtin.negate), (.not, builtin.not)]

/-- `RuntimeFunctionsDispatcher::get_binary_operator_function`: lookup in
the hash map built from `BINARY_OPERATORS`. -/
def get_binary_operator_function (operator : BinaryOperator) :
    Option RuntimeBinaryOperator :=
  BINARY_OPERATORS.lookup operator

/-- `RuntimeFunctionsDispatcher::get_unary_operator_function`. -/
def get_unary_operator_function (operator : UnaryOperator) :
    Option RuntimeUnaryOperator :=
  UNARY_OPERATORS.lookup operator

/-! ## Interpreter state (`interpreter.rs`) -/

/-- A runtime scope (`interpreter.rs` `RuntimeScope`): a `HashMap` from
names to values, modelled as a function map. -/
def RuntimeScope : Type := String → Option RuntimeValue

/-- `RuntimeScope::new`. -/
def RuntimeScope.new : RuntimeScope := fun _ => none

/-- `RuntimeScope::set_variable` (`HashMap::insert`). -/
def RuntimeScope.set_variable (s : RuntimeScope) (name : String)
    (v : RuntimeValue) : RuntimeScope :=
  fun k => if k = name then some v else s k

/-- `RuntimeScope::get_variable` (`HashMap::get`). -/
def RuntimeScope.get_variable (s : RuntimeScope) (name : String) :
    Option RuntimeValue :=
  s name

/-- A user-defined function (`interpreter.rs` `FunctionInfo`). -/
structure FunctionInfo where
  parameters : List String
  body : Statement

/-- Errors that abort an interpretation.  `runtime e` models
`Interpreter::report_error(e)` (a panic in the source); `accumulatorEmpty`
models the `take().expect("Expression unevaluated")` panic;
`internalPanic` models the remaining `unwrap`s; `outOfFuel` is the fuel
artifact of the embedding. -/
inductive ExecError where
  | runtime (e : RuntimeError)
  | accumulatorEmpty
  | internalPanic
  | outOfFuel
deriving DecidableEq

/-- The interpreter state (`interpreter.rs` `Interpreter`): accumulator
register, scope stack (innermost scope LAST, like the `Vec` in the source)
and the pre-scanned function table. -/
structure InterpState where
  accumulator : Option RuntimeValue
  scopes : List RuntimeScope
  functions : String → Option FunctionInfo

/-- `Interpreter::get_accumulator_value`: `take` the accumulator, panicking
(here: erroring) when it is empty. -/
def get_accumulator_value (st : InterpState) :
    Except ExecError (RuntimeValue × InterpState) :=
  match st.accumulator with
  | some v => .ok (v, { st with accumulator := none })
  | none => .error .accumulatorEmpty

/-- Replace the last element of a scope list (`scopes.last_mut()`); `none`
when the list is empty (an `unwrap` panic in the source). -/
def updateLastScope (f : RuntimeScope → RuntimeScope) :
    List RuntimeScope → Option (List RuntimeScope)
  | [] => none
  | s :: rest =>
      match updateLastScope f rest with
      | none => some [f s]
      | some rest2 => some (s :: rest2)

/-- `Interpreter::register_variable`: bind in the innermost (last) runtime
scope. -/
def register_variable (st : InterpState) (name : String) (v : RuntimeValue) :
    Except ExecError InterpState :=
  match updateLastScope (fun sc => sc.set_variable name v) st.scopes with
  | some scs => .ok { st with scopes := scs }
  | none => .error .internalPanic

/-- `Interpreter::set_variable_value` without the error reporting: walk the
scope stack from the innermost (last) scope outward, overwrite the name in
the nearest scope already containing it; `none` when no scope contains it
(the `VariableNotFound` fatal error in the source). -/
def set_variable_value (scopes : List RuntimeScope) (name : String)
    (v : RuntimeValue) : Option (List RuntimeScope) :=
  match scopes with
  | [] => none
  | s :: rest =>
      match set_variable_value rest name v with
      | some rest2 => some (s :: rest2)
      | none =>
          if (s name).isSome then some (s.set_variable name v :: rest)
          else none

/-- `Interpreter::get_variable` without the error reporting: nearest
(innermost-first) lookup through the scope stack. -/
def get_variable (scopes : List RuntimeScope) (name : String) :
    Option RuntimeValue :=
  match scopes with
  | [] => none
  | s :: rest =>
      match get_variable rest name with
      | some v => some v
      | none => s name

/-- `Interpreter::push_scope`. -/
def push_scope (st : InterpState) : InterpState :=
  { st with scopes := st.scopes ++ [RuntimeScope.new] }

/-- `Interpreter::pop_scope`. -/
def pop_scope (st : InterpState) : InterpState :=
  { st with scopes := st.scopes.dropLast }

/-- `Interpreter::collect_functions`: pre-scan the top-level statements for
function definitions (later definitions overwrite earlier ones, as the
`HashMap::insert` does). -/
def collect_functions : List Statement → (String → Option FunctionInfo) →
    (String → Option FunctionInfo)
  | [], f => f
  | .functionDefinition name args body :: rest, f =>
      collect_functions rest
        (fun k => if k = name.value then
            some ⟨args.map (fun a => a.value), body⟩
          else f k)
  | _ :: rest, f => collect_functions rest f

end NavaCode

namespace NavaCode

/-! ## The tree-walking evaluator (`impl AstExplorer for Interpreter`)

The `visit_*` hooks of the interpreter, written as one mutual family of
fueled functions.  Every function pattern-matches its fuel and passes the
predecessor to each recursive call; `outOfFuel` never occurs in the runs
below. -/

mutual

/-- `AstExplorer::visit_expression` dispatch together with the
interpreter's expression hooks (`visit_number_expression`,
`visit_boolean_expression`, `visit_variable_expression`,
`visit_binary_operation`, `visit_unary_operation`); the result value is
left in the accumulator. -/
def evalExpr : Nat → Expression → InterpState → Except ExecError InterpState
  | 0, _, _ => .error .outOfFuel
  | fuel + 1, e, st =>
    match e with
    | .literal (.number n) _ => .ok { st with accumulator := some (.number n) }
    | .literal (.boolean b) _ => .ok { st with accumulator := some (.bool b) }
    | .variableRef t =>
        match get_variable st.scopes t.value with
        | some v => .ok { st with accumulator := some v }
        | none => .error (.runtime (.variableNotFound t.value))
    | .binaryOperation l operator r =>
        match evalExpr fuel l st with
        | .error err => .error err
        | .ok st1 =>
          match get_accumulator_value st1 with
          | .error err => .error err
          | .ok (leftValue, st2) =>
            match evalExpr fuel r st2 with
            | .error err => .error err
            | .ok st3 =>
              match get_accumulator_value st3 with
              | .error err => .error err
              | .ok (rightValue, st4) =>
                match get_binary_operator_function operator with
                | none => .error .internalPanic
                | some op =>
                  match op leftValue rightValue with
                  | .ok result => .ok { st4 with accumulator := some result }
                  | .error err => .error (.runtime err)
    | .unaryOperation operator operand =>
        match evalExpr fuel operand st with
        | .error err => .error err
        | .ok st1 =>
          match get_accumulator_value st1 with
          | .error err => .error err
          | .ok (operandValue, st2) =>
            match get_unary_operator_function operator with
            | none => .error .internalPanic
            | some op =>
              match op operandValue with
              | .ok result => .ok { st2 with accumulator := some result }
              | .error err => .error (.runtime err)
    | .grouped inner => evalExpr fuel inner st
    | .functionCall functionName arguments =>
        visitFunctionCall fuel functionName arguments st

/-- `Interpreter::visit_function_call`: a name not present in the
pre-scanned function table is silently skipped. -/
def visitFunctionCall : Nat → Token → List Expression → InterpState →
    Except ExecError InterpState
  | 0, _, _, _ => .error .outOfFuel
  | fuel + 1, functionName, arguments, st =>
    match st.functions functionName.value with
    | some functionInfo => callFunction fuel functionInfo arguments st
    | none => .ok st

/-- `Interpreter::call_function`: push a scope, bind parameters to the
evaluated arguments, execute the body, pop the scope. -/
def callFunction : Nat → FunctionInfo → List Expression → InterpState →
    Except ExecError InterpState
  | 0, _, _, _ => .error .outOfFuel
  | fuel + 1, functionInfo, arguments, st =>
    match bindParameters fuel (functionInfo.parameters.zip arguments)
        (push_scope st) with
    | .error err => .error err
    | .ok st1 =>
      match execStmt fuel functionInfo.body st1 with
      | .error err => .error err
      | .ok st2 => .ok (pop_scope st2)

/-- The parameter-binding loop of `Interpreter::call_function`
(`parameters.zip(arguments)`). -/
def bindParameters : Nat → List (String × Expression) → InterpState →
    Except ExecError InterpState
  | 0, _, _ => .error .outOfFuel
  | _ + 1, [], st => .ok st
  | fuel + 1, (param, arg) :: rest, st =>
    match evalExpr fuel arg st with
    | .error err => .error err
    | .ok st1 =>
      match get_accumulator_value st1 with
      | .error err => .error err
      | .ok (v, st2) =>
        match register_variable st2 param v with
        | .error err => .error err
        | .ok st3 => bindParameters fuel rest st3

/-- `AstExplorer::visit_statement` dispatch together with the
interpreter's statement hooks. -/
def execStmt : Nat → Statement → InterpState → Except ExecError InterpState
  | 0, _, _ => .error .outOfFuel
  | fuel + 1, s, st =>
    match s with
    | .variableDeclaration name value =>
        match evalExpr fuel value st with
        | .error err => .error err
        | .ok st1 =>
          match get_accumulator_value st1 with
          | .error err => .error err
          | .ok (v, st2) => register_variable st2 name.value v
    | .variableAssignment name value =>
        match evalExpr fuel value st with
        | .error err => .error err
        | .ok st1 =>
          match get_accumulator_value st1 with
          | .error err => .error err
          | .ok (v, st2) =>
            match set_variable_value st2.scopes name.value v with
            | some scs => .ok { st2 with scopes := scs }
            | none => .error (.runtime (.variableNotFound name.value))
    | .ifStatement condition thenBranch elseBranch =>
        match evalExpr fuel condition st with
        | .error err => .error err
        | .ok st1 =>
          match get_accumulator_value st1 with
          | .error err => .error err
          | .ok (conditionValue, st2) =>
            match conditionValue with
            | .bool true => execStmt fuel thenBranch st2
            | .bool false =>
                match elseBranch with
                | some eb => execStmt fuel eb st2
                | none => .ok st2
            | .number _ => .error (.runtime .invalidCondition)
    | .blockStatement statements =>
        match execStmts fuel statements (push_scope st) with
        | .error err => .error err
        | .ok st1 => .ok (pop_scope st1)
    | .whileStatement condition body => whileLoop fuel condition body st
    | .forStatement loopVar startExpr stopExpr stepExpr body =>
        match evalExpr fuel startExpr st with
        | .error err => .error err
        | .ok st1 =>
          match get_accumulator_value st1 with
          | .error err => .error err
          | .ok (startValue, st2) =>
            match evalExpr fuel stopExpr st2 with
            | .error err => .error err
            | .ok st3 =>
              match get_accumulator_value st3 with
              | .error err => .error err
              | .ok (stopValue, st4) =>
                match (match stepExpr with
                       | some se =>
                           match evalExpr fuel se st4 with
                           | .error err => .error err
                           | .ok st5 => get_accumulator_value st5
                       | none => .ok (.number 1, st4) : Except ExecError
                         (RuntimeValue × InterpState)) with
                | .error err => .error err
                | .ok (stepValue, st6) =>
                  match register_variable (push_scope st6) loopVar.value
                      startValue with
                  | .error err => .error err
                  | .ok st7 =>
                    match forLoop fuel loopVar.value stopValue stepValue body
                        st7 with
                    | .error err => .error err
                    | .ok st8 => .ok (pop_scope st8)
    | .functionDefinition _ _ _ => .ok st
    | .functionCall functionName arguments =>
        visitFunctionCall fuel functionName arguments st
    | .returnStatement _ _ =>
        -- The interpreter snapshot implements no return-value propagation
        -- (spec §9): executing a return statement has no runtime effect.
        .ok st

/-- The statement sequence walk of `AstExplorer::visit_statement` for block
statements / `explore_ast`. -/
def execStmts : Nat → List Statement → InterpState →
    Except ExecError InterpState
  | 0, _, _ => .error .outOfFuel
  | _ + 1, [], st => .ok st
  | fuel + 1, s :: rest, st =>
    match execStmt fuel s st with
    | .error err => .error err
    | .ok st1 => execStmts fuel rest st1

/-- The loop of `Interpreter::visit_while_statement`. -/
def whileLoop : Nat → Expression → Statement → InterpState →
    Except ExecError InterpState
  | 0, _, _, _ => .error .outOfFuel
  | fuel + 1, condition, body, st =>
    match evalExpr fuel condition st with
    | .error err => .error err
    | .ok st1 =>
      match get_accumulator_value st1 with
      | .error err => .error err
      | .ok (conditionValue, st2) =>
        match conditionValue with
        | .bool true =>
            match execStmt fuel body st2 with
            | .error err => .error err
            | .ok st3 => whileLoop fuel condition body st3
        | .bool false => .ok st2
        | .number _ => .error (.runtime .invalidCondition)

/-- The loop of `Interpreter::visit_for_statement`: before each iteration
the current value of the induction variable is compared against the end
bound with `builtin::gt` and the loop stops on `Ok(Bool(true))`; after the
body, the variable is advanced by the step via `builtin::add` and the
outward-in assignment path. -/
def forLoop : Nat → String → RuntimeValue → RuntimeValue → Statement →
    InterpState → Except ExecError InterpState
  | 0, _, _, _, _, _ => .error .outOfFuel
  | fuel + 1, varName, stopValue, stepValue, body, st =>
    match get_variable st.scopes varName with
    | none => .error (.runtime (.variableNotFound varName))
    | some currentValue =>
      match builtin.gt currentValue stopValue with
      | .ok (.bool true) => .ok st
      | .error err => .error (.runtime err)
      | _ =>
        match execStmt fuel body st with
        | .error err => .error err
        | .ok st1 =>
          match get_variable st1.scopes varName with
          | none => .error (.runtime (.variableNotFound varName))
          | some current2 =>
            match builtin.add current2 stepValue with
            | .error err => .error (.runtime err)
            | .ok newValue =>
              match set_variable_value st1.scopes varName newValue with
              | some scs =>
                  forLoop fuel varName stopValue stepValue body
                    { st1 with scopes := scs }
              | none => .error (.runtime (.variableNotFound varName))

end

/-- `Interpreter::new` (initial state: empty accumulator, one global
runtime scope, empty function table). -/
def InterpState.new : InterpState :=
  { accumulator := none, scopes := [RuntimeScope.new], functions := fun _ => none }

/-- `Interpreter::interpret` (minus the console/back-trace plumbing):
pre-scan the function definitions, then walk the program. -/
def interpret (fuel : Nat) (statements : List Statement) :
    Except ExecError InterpState :=
  let st0 := InterpState.new
  execStmts fuel statements
    { st0 with functions := collect_functions statements st0.functions }

/-- The binding of a name in the global scope (`scopes[0]`), as read by
`Interpreter::display_state`. -/
def InterpState.globalLookup (st : InterpState) (name : String) :
    Option RuntimeValue :=
  match st.scopes with
  | [] => none
  | g :: _ => g name

end NavaCode

namespace NavaCode

/-! ## Symbol table (`symbols_table.rs`) -/

/-- `symbols_table.rs` `VariableSymbol`. -/
structure VariableSymbol where
  identifier : String
  sym_type : Ty
deriving DecidableEq

/-- `symbols_table.rs` `FunctionSymbol`. -/
structure FunctionSymbol where
  identifier : String
  parameters : List String
deriving DecidableEq

/-- `symbols_table.rs` `ScopeId` (an index into the scope array). -/
abbrev ScopeId : Type := Nat

/-- `symbols_table.rs` `Scope`: per-scope variable map (the `variables`
field of the source, renamed `vars`) plus parent link. -/
structure Scope where
  vars : String → Option VariableSymbol
  parent : Option ScopeId

/-- `Scope::new`. -/
def Scope.new (parent : ScopeId) : Scope :=
  { vars := fun _ => none, parent := some parent }

/-- `Scope::new_global`. -/
def Scope.new_global : Scope :=
  { vars := fun _ => none, parent := none }

/-- `Scope::add_variable` (`HashMap::insert`, keyed by the symbol's
identifier). -/
def Scope.add_variable (s : Scope) (symbol : VariableSymbol) : Scope :=
  { s with vars :=
      fun k => if k = symbol.identifier then some symbol else s.vars k }

/-- `Scope::lookup`. -/
def Scope.lookup (s : Scope) (identifier : String) : Option VariableSymbol :=
  s.vars identifier

/-- `symbols_table.rs` `SymbolsTable`: growable scope array plus the flat
global function map. -/
structure SymbolsTable where
  scopes : List Scope
  functions : String → Option FunctionSymbol

/-- `SymbolsTable::new`: scope 0 is the global scope. -/
def SymbolsTable.new : SymbolsTable :=
  { scopes := [Scope.new_global], functions := fun _ => none }

/-- `SymbolsTable::enter_scope`: append a fresh scope whose parent is the
current one and return its index. -/
def SymbolsTable.enter_scope (t : SymbolsTable) (currentScopeId : ScopeId) :
    SymbolsTable × ScopeId :=
  ({ t with scopes := t.scopes ++ [Scope.new currentScopeId] },
   t.scopes.length)

/-- `SymbolsTable::exit_scope`: parent of the given scope; `none` models
the `expect("Cannot exit global scope")` panic / out-of-range index. -/
def SymbolsTable.exit_scope (t : SymbolsTable) (currentScopeId : ScopeId) :
    Option ScopeId :=
  (t.scopes.get? currentScopeId).bind (fun sc => sc.parent)

/-- `SymbolsTable::define_variable` (out-of-range indices, which panic in
the source and are unreachable, leave the table unchanged). -/
def SymbolsTable.define_variable (t : SymbolsTable) (symbol : VariableSymbol)
    (currentScopeId : ScopeId) : SymbolsTable :=
  match t.scopes.get? currentScopeId with
  | some sc => { t with scopes := t.scopes.set currentScopeId (sc.add_variable symbol) }
  | none => t

/-- `SymbolsTable::define_function` (flat global map, insert overwrites). -/
def SymbolsTable.define_function (t : SymbolsTable) (symbol : FunctionSymbol) :
    SymbolsTable :=
  { t with functions :=
      fun k => if k = symbol.identifier then some symbol else t.functions k }

/-- `SymbolsTable::lookup_variable_in_scope_only`. -/
def SymbolsTable.lookup_variable_in_scope_only (t : SymbolsTable)
    (identifier : String) (currentScopeId : ScopeId) : Option VariableSymbol :=
  (t.scopes.get? currentScopeId).bind (fun sc => sc.lookup identifier)

/-- `SymbolsTable::lookup_function`. -/
def SymbolsTable.lookup_function (t : SymbolsTable) (identifier : String) :
    Option FunctionSymbol :=
  t.functions identifier

/-- The `while let` walk of `SymbolsTable::lookup_variable`, with fuel (the
source loop terminates because `enter_scope` only creates parent links that
point to strictly smaller indices). -/
def lookupVariableAux (t : SymbolsTable) (identifier : String) :
    Nat → Option ScopeId → Option VariableSymbol
  | 0, _ => none
  | _, none => none
  | fuel + 1, some scopeId =>
      match t.scopes.get? scopeId with
      | none => none
      | some scope =>
          match scope.lookup identifier with
          | some symbol => some symbol
          | none => lookupVariableAux t identifier fuel scope.parent

/-- `SymbolsTable::lookup_variable`: nearest enclosing binding via the
parent chain. -/
def SymbolsTable.lookup_variable (t : SymbolsTable) (identifier : String)
    (currentScopeId : ScopeId) : Option VariableSymbol :=
  lookupVariableAux t identifier (t.scopes.length + 1) (some currentScopeId)

/-! ## Resolver (`resolver.rs`) -/

/-- The resolver state (`resolver.rs` `Resolver`). -/
structure Resolver where
  symbols_table : SymbolsTable
  current_scope_id : ScopeId
  diagnostics : List Diagnostic
  block_type_stack : List BlockType
  current_block_type : Option BlockType
  type_accumulator : Ty

/-- `Resolver::new`. -/
def Resolver.new : Resolver :=
  { symbols_table := SymbolsTable.new
    current_scope_id := 0
    diagnostics := []
    block_type_stack := []
    current_block_type := none
    type_accumulator := .unresolved }

/-- `Diagnostics::report` on the resolver's collection. -/
def Resolver.report (r : Resolver) (d : Diagnostic) : Resolver :=
  { r with diagnostics := r.diagnostics ++ [d] }

mutual

/-- `AstExplorer::visit_expression` dispatch with the resolver's expression
hooks (`visit_number_expression`, `visit_boolean_expression`,
`visit_variable_expression`, `visit_binary_operation`,
`visit_unary_operation`): synthesized types travel through
`type_accumulator`. -/
def Resolver.visitExpression : Resolver → Expression → Resolver
  | r, .literal (.number _) _ => { r with type_accumulator := .int }
  | r, .literal (.boolean _) _ => { r with type_accumulator := .bool }
  | r, .variableRef t =>
      match r.symbols_table.lookup_variable t.value r.current_scope_id with
      | some symbol => { r with type_accumulator := symbol.sym_type }
      | none => r.report (Diagnostic.undefined_variable t)
  | r, .binaryOperation l operator rhs =>
      let r1 := Resolver.visitExpression r l
      let leftType := r1.type_accumulator
      let r2 := Resolver.visitExpression r1 rhs
      let rightType := r2.type_accumulator
      let resultType := resolve_binary_operation_type leftType rightType operator
      let r3 := { r2 with type_accumulator := resultType }
      if resultType = .unresolved then
        r3.report (.incompatibleBinaryOperation leftType rightType operator
          (l.span.union rhs.span))
      else r3
  | r, .unaryOperation operator operand =>
      let r1 := Resolver.visitExpression r operand
      let operandType := r1.type_accumulator
      let resultType := resolve_unary_operation_type operandType operator
      let r2 := { r1 with type_accumulator := resultType }
      if resultType = .unresolved then
        r2.report (.incompatibleUnaryOperation operandType operator operand.span)
      else r2
  | r, .grouped inner => Resolver.visitExpression r inner
  | r, .functionCall functionName arguments =>
      Resolver.visitFunctionCall r functionName arguments

/-- `Resolver::visit_function_call`: arity check against the registered
function, then every argument is still visited. -/
def Resolver.visitFunctionCall : Resolver → Token → List Expression → Resolver
  | r, functionName, arguments =>
      let r1 :=
        match r.symbols_table.lookup_function functionName.value with
        | some functionSymbol =>
            if functionSymbol.parameters.length ≠ arguments.length then
              r.report (Diagnostic.function_arguments_mismatch functionName
                functionSymbol.parameters.length arguments.length)
            else r
        | none => r.report (Diagnostic.undefined_function functionName)
      Resolver.visitExpressionList r1 arguments

/-- The argument walk of `Resolver::visit_function_call`. -/
def Resolver.visitExpressionList : Resolver → List Expression → Resolver
  | r, [] => r
  | r, e :: rest =>
      Resolver.visitExpressionList (Resolver.visitExpression r e) rest

end

/-- `Resolver::visit_variable_declaration`: report a redefinition iff the
name is bound in the exact current scope, then visit the initializer and
bind the name with the inferred type. -/
def Resolver.visit_variable_declaration (r : Resolver) (name : Token)
    (value : Expression) : Resolver :=
  let r1 :=
    if (r.symbols_table.lookup_variable_in_scope_only name.value
        r.current_scope_id).isSome then
      r.report (Diagnostic.variable_redefinition name)
    else r
  let r2 := r1.visitExpression value
  let symbol : VariableSymbol := ⟨name.value, r2.type_accumulator⟩
  { r2 with symbols_table :=
      r2.symbols_table.define_variable symbol r2.current_scope_id }

/-- `Resolver::visit_variable_assignement`: visit the value, then report
`undefined_variable` when the name is unbound in the whole chain, or a
type mismatch when the types disagree. -/
def Resolver.visit_variable_assignement (r : Resolver) (name : Token)
    (value : Expression) : Resolver :=
  let r1 := r.visitExpression value
  match r1.symbols_table.lookup_variable name.value r1.current_scope_id with
  | some variableSymbol =>
      if variableSymbol.sym_type ≠ r1.type_accumulator then
        r1.report (Diagnostic.variable_type_mismatch name
          variableSymbol.sym_type r1.type_accumulator)
      else r1
  | none => r1.report (Diagnostic.undefined_variable name)

end NavaCode

namespace NavaCode

/-! ## Parser (`parser.rs`) -/

/-- The digit fold of `str::parse::<i64>` for the digit-only strings the
lexer produces (models `number_token.value.parse().unwrap()` in
`Parser::parse_literal_expression`; `none` models the parse panic). -/
def digitsToNat : List Char → Option Nat → Option Nat
  | [], acc => acc
  | c :: rest, acc =>
      if '0' ≤ c ∧ c ≤ '9' then
        digitsToNat rest (some ((acc.getD 0) * 10 + (c.toNat - 48)))
      else none

/-- `str::parse::<i64>` on a lexed number literal (see `digitsToNat`). -/
def parseNumberValue (s : String) : Option Int :=
  (digitsToNat s.data none).map Int.ofNat

/-- `parser.rs` `ErrorRecoveryState`. -/
inductive ErrorRecoveryState where
  | recoverFromBadBlock (blockType : BlockType)
deriving DecidableEq

/-- `parser.rs` `RECOVERY_END_POINTS`: tokens recovery can stop at. -/
def RECOVERY_END_POINTS : List TokenKind :=
  [.letKeyword, .setKeyword, .ifKeyword, .whileKeyword, .forKeyword,
   .endKeyword, .elseKeyword, .defineKeyword]

/-- Failures of a parsing function.  `diag` is the `Err(Diagnostic)` of the
source; `tokensExhausted` models the `peek()/next().unwrap()` panic on a
stream missing its end-of-file sentinel; `numberParsePanic` models the
`value.parse().unwrap()` panic; `outOfFuel` is the fuel artifact of the
embedding. -/
inductive ParseError where
  | diag (d : Diagnostic)
  | tokensExhausted
  | numberParsePanic
  | outOfFuel
deriving DecidableEq

/-- The parser state (`parser.rs` `Parser`): the remaining token stream,
the error-recovery-state stack (most recent marker first) and the list of
consumed token kinds.  The two `ghost…` counters are pure instrumentation
for the balance theorems: they count how often `push_recovery_state`
pushed and how often `pop_recovery_state` removed a marker, and no parsing
decision reads them. -/
structure ParserState where
  tokens : List Token
  recovery_states : List ErrorRecoveryState
  consumed_tokens : List TokenKind
  ghostPushes : Nat
  ghostPops : Nat
deriving DecidableEq

/-- `Parser::new`. -/
def ParserState.new (tokens : List Token) : ParserState :=
  { tokens := tokens, recovery_states := [], consumed_tokens := []
    ghostPushes := 0, ghostPops := 0 }

/-- `Parser::push_recovery_state`. -/
def ParserState.push_recovery_state (st : ParserState)
    (recoveryState : ErrorRecoveryState) : ParserState :=
  { st with recovery_states := recoveryState :: st.recovery_states
            ghostPushes := st.ghostPushes + 1 }

/-- `Parser::pop_recovery_state` (`Vec::pop`: `none` and no change on an
empty stack). -/
def ParserState.pop_recovery_state (st : ParserState) :
    Option ErrorRecoveryState × ParserState :=
  match st.recovery_states with
  | [] => (none, st)
  | r :: rest =>
      (some r, { st with recovery_states := rest, ghostPops := st.ghostPops + 1 })

/-- `Parser::current_recovery_state` (`Vec::last`). -/
def ParserState.current_recovery_state (st : ParserState) :
    Option ErrorRecoveryState :=
  st.recovery_states.head?

/-- `Parser::advance`: consume the current token, recording its kind in
`consumed_tokens`. -/
def ParserState.advance (st : ParserState) :
    Except ParseError (Token × ParserState) :=
  match st.tokens with
  | [] => .error .tokensExhausted
  | t :: rest =>
      .ok (t, { st with tokens := rest
                        consumed_tokens := st.consumed_tokens ++ [t.kind] })

/-- `Parser::expect`: consume and return the current token when its kind is
among the expected ones, otherwise fail with an `unexpected_token`
diagnostic and leave the state untouched. -/
def Parser.expect (expectedTokens : List TokenKind) (st : ParserState) :
    Except ParseError Token × ParserState :=
  match st.tokens with
  | [] => (.error .tokensExhausted, st)
  | t :: rest =>
      if t.kind ∈ expectedTokens then
        (.ok t, { st with tokens := rest
                          consumed_tokens := st.consumed_tokens ++ [t.kind] })
      else
        (.error (.diag (Diagnostic.unexpected_token expectedTokens t)), st)

/-- The skip loop of `Parser::recover` over the raw token/consumed lists. -/
def recoverAux : List Token → List TokenKind →
    Except ParseError Unit × List Token × List TokenKind
  | [], consumed => (.error .tokensExhausted, [], consumed)
  | t :: rest, consumed =>
      if t.kind = .endOfFile ∨ t.kind ∈ RECOVERY_END_POINTS then
        (.ok (), t :: rest, consumed)
      else recoverAux rest (consumed ++ [t.kind])

/-- `Parser::recover`: discard tokens until end-of-file or a token in
`RECOVERY_END_POINTS`. -/
def Parser.recover (st : ParserState) : Except ParseError Unit × ParserState :=
  match recoverAux st.tokens st.consumed_tokens with
  | (res, toks, consumed) =>
      (res, { st with tokens := toks, consumed_tokens := consumed })

mutual

/-- `Parser::parse_statement`: dispatch on the current token kind, pushing
`RecoverFromBadBlock` markers when a block construct fails, and handling
stray `else`/`end` tokens against the recovery-state stack. -/
def parse_statement : Nat → ParserState →
    Except ParseError (Option Statement) × ParserState
  | 0, st => (.error .outOfFuel, st)
  | fuel + 1, st =>
    match st.tokens with
    | [] => (.error .tokensExhausted, st)
    | t :: _ =>
      if t.kind = .endOfFile then (.ok none, st)
      else match t.kind with
      | .letKeyword =>
          match parse_variable_declaration fuel st with
          | (.ok s, st1) => (.ok (some s), st1)
          | (.error e, st1) => (.error e, st1)
      | .setKeyword =>
          match parse_variable_assignement fuel st with
          | (.ok s, st1) => (.ok (some s), st1)
          | (.error e, st1) => (.error e, st1)
      | .ifKeyword =>
          match parse_if_statement fuel st with
          | (.ok s, st1) => (.ok (some s), st1)
          | (.error e, st1) =>
              (.error e,
               st1.push_recovery_state (.recoverFromBadBlock .ifBlock))
      | .whileKeyword =>
          match parse_while_statement fuel st with
          | (.ok s, st1) => (.ok (some s), st1)
          | (.error e, st1) =>
              (.error e,
               st1.push_recovery_state (.recoverFromBadBlock .whileBlock))
      | .forKeyword =>
          match parse_for_statement fuel st with
          | (.ok s, st1) => (.ok (some s), st1)
          | (.error e, st1) =>
              (.error e,
               st1.push_recovery_state (.recoverFromBadBlock .forBlock))
      | .defineKeyword =>
          match parse_function_definition fuel st with
          | (.ok s, st1) => (.ok (some s), st1)
          | (.error e, st1) =>
              (.error e,
               st1.push_recovery_state (.recoverFromBadBlock .functionBlock))
      | .identifier =>
          match parse_function_call fuel st with
          | (.ok (name, args), st1) => (.ok (some (.functionCall name args)), st1)
          | (.error e, st1) => (.error e, st1)
      | .returnKeyword =>
          match parse_return_statement fuel st with
          | (.ok s, st1) => (.ok (some s), st1)
          | (.error e, st1) => (.error e, st1)
      | .elseKeyword =>
          if st.current_recovery_state = some (.recoverFromBadBlock .ifBlock) then
            match st.advance with
            | .ok (_, st1) => parse_statement fuel st1
            | .error e => (.error e, st)
          else if st.consumed_tokens.getLast? = some .endKeyword then
            let st1 := st.push_recovery_state (.recoverFromBadBlock .elseBlock)
            match st1.advance with
            | .ok (tk, st2) => (.error (.diag (.unexpectedElseAfterEnd tk.span)), st2)
            | .error e => (.error e, st1)
          else
            let st1 := st.push_recovery_state (.recoverFromBadBlock .elseBlock)
            match st1.advance with
            | .ok (tk, st2) => (.error (.diag (.unexpectedElseToken tk.span)), st2)
            | .error e => (.error e, st1)
      | .endKeyword =>
          match st.current_recovery_state with
          | some (.recoverFromBadBlock _) =>
              let st1 := (st.pop_recovery_state).2
              match st1.advance with
              | .ok (_, st2) => parse_statement fuel st2
              | .error e => (.error e, st1)
          | none =>
              match st.advance with
              | .ok (tk, st1) => (.error (.diag (.unexpectedEndToken tk.span)), st1)
              | .error e => (.error e, st)
      | _ =>
          match st.advance with
          | .ok (tk, st1) =>
              (.error (.diag (Diagnostic.unexpected_token RECOVERY_END_POINTS tk)), st1)
          | .error e => (.error e, st)

/-- The statement loop of `Parser::parse_statements_until`. -/
def parse_statements_until_loop : Nat → List TokenKind → List Statement →
    ParserState → Except ParseError (List Statement) × ParserState
  | 0, _, _, st => (.error .outOfFuel, st)
  | fuel + 1, stopTokens, acc, st =>
    match st.tokens with
    | [] => (.error .tokensExhausted, st)
    | t :: _ =>
      if t.kind ∈ stopTokens then (.ok acc, st)
      else
        match parse_statement fuel st with
        | (.ok (some s), st1) =>
            parse_statements_until_loop fuel stopTokens (acc ++ [s]) st1
        | (.ok none, st1) => (.ok acc, st1)
        | (.error e, st1) => (.error e, st1)

/-- `Parser::parse_statements_until`: statements up to (excluding) a stop
token, wrapped in a `BlockStatement`. -/
def parse_statements_until : Nat → List TokenKind → ParserState →
    Except ParseError Statement × ParserState
  | 0, _, st => (.error .outOfFuel, st)
  | fuel + 1, stopTokens, st =>
    match parse_statements_until_loop fuel stopTokens [] st with
    | (.ok statements, st1) => (.ok (.blockStatement statements), st1)
    | (.error e, st1) => (.error e, st1)

/-- The loop of `Parser::parse_tokens_list`. -/
def parse_tokens_list_loop : Nat → TokenKind → Option TokenKind →
    List Token → ParserState → Except ParseError (List Token) × ParserState
  | 0, _, _, _, st => (.error .outOfFuel, st)
  | fuel + 1, targetTokenType, separator, acc, st =>
    match separator with
    | some sep =>
        match st.tokens with
        | [] => (.error .tokensExhausted, st)
        | t :: _ =>
          if t.kind ≠ sep then (.ok acc, st)
          else
            match st.advance with
            | .error e => (.error e, st)
            | .ok (_, st1) =>
                match Parser.expect [targetTokenType] st1 with
                | (.ok tk, st2) =>
                    parse_tokens_list_loop fuel targetTokenType separator
                      (acc ++ [tk]) st2
                | (.error e, st2) => (.error e, st2)
    | none =>
        match Parser.expect [targetTokenType] st with
        | (.ok tk, st1) =>
            parse_tokens_list_loop fuel targetTokenType separator
              (acc ++ [tk]) st1
        | (.error e, st1) => (.error e, st1)

/-- `Parser::parse_tokens_list`: one mandatory target token, then
separator-prefixed repetitions. -/
def parse_tokens_list : Nat → TokenKind → Option TokenKind → ParserState →
    Except ParseError (List Token) × ParserState
  | 0, _, _, st => (.error .outOfFuel, st)
  | fuel + 1, targetTokenType, separator, st =>
    match Parser.expect [targetTokenType] st with
    | (.ok tk, st1) =>
        parse_tokens_list_loop fuel targetTokenType separator [tk] st1
    | (.error e, st1) => (.error e, st1)

/-- `Parser::parse_variable_declaration`: `let <ident> be <expr>`. -/
def parse_variable_declaration : Nat → ParserState →
    Except ParseError Statement × ParserState
  | 0, st => (.error .outOfFuel, st)
  | fuel + 1, st =>
    match Parser.expect [.letKeyword] st with
    | (.error e, st1) => (.error e, st1)
    | (.ok _, st1) =>
      match Parser.expect [.identifier] st1 with
      | (.error e, st2) => (.error e, st2)
      | (.ok nameToken, st2) =>
        match Parser.expect [.beKeyword] st2 with
        | (.error e, st3) => (.error e, st3)
        | (.ok _, st3) =>
          match parse_expression fuel st3 with
          | (.ok value, st4) => (.ok (.variableDeclaration nameToken value), st4)
          | (.error e, st4) => (.error e, st4)

/-- `Parser::parse_variable_assignement`: `set <ident> to <expr>`. -/
def parse_variable_assignement : Nat → ParserState →
    Except ParseError Statement × ParserState
  | 0, st => (.error .outOfFuel, st)
  | fuel + 1, st =>
    match Parser.expect [.setKeyword] st with
    | (.error e, st1) => (.error e, st1)
    | (.ok _, st1) =>
      match Parser.expect [.identifier] st1 with
      | (.error e, st2) => (.error e, st2)
      | (.ok nameToken, st2) =>
        match Parser.expect [.toKeyword] st2 with
        | (.error e, st3) => (.error e, st3)
        | (.ok _, st3) =>
          match parse_expression fuel st3 with
          | (.ok value, st4) => (.ok (.variableAssignment nameToken value), st4)
          | (.error e, st4) => (.error e, st4)

/-- `Parser::parse_if_statement`. -/
def parse_if_statement : Nat → ParserState →
    Except ParseError Statement × ParserState
  | 0, st => (.error .outOfFuel, st)
  | fuel + 1, st =>
    match parse_if_then_branch fuel st with
    | (.error e, st1) => (.error e, st1)
    | (.ok (condition, thenBranch), st1) =>
      match st1.tokens with
      | [] => (.error .tokensExhausted, st1)
      | t :: _ =>
        if t.kind = .elseKeyword then
          match parse_else_branch fuel st1 with
          | (.ok elseBranch, st2) =>
              (.ok (.ifStatement condition thenBranch (some elseBranch)), st2)
          | (.error e, st2) => (.error e, st2)
        else
          match Parser.expect [.endKeyword] st1 with
          | (.ok _, st2) => (.ok (.ifStatement condition thenBranch none), st2)
          | (.error e, st2) => (.error e, st2)

/-- `Parser::parse_if_then_branch` (the inlined `IfThenBranch`). -/
def parse_if_then_branch : Nat → ParserState →
    Except ParseError (Expression × Statement) × ParserState
  | 0, st => (.error .outOfFuel, st)
  | fuel + 1, st =>
    match Parser.expect [.ifKeyword] st with
    | (.error e, st1) => (.error e, st1)
    | (.ok _, st1) =>
      match parse_expression fuel st1 with
      | (.error e, st2) => (.error e, st2)
      | (.ok condition, st2) =>
        match Parser.expect [.thenKeyword] st2 with
        | (.error e, st3) => (.error e, st3)
        | (.ok _, st3) =>
          match parse_statements_until fuel [.elseKeyword, .endKeyword] st3 with
          | (.ok thenBranch, st4) => (.ok (condition, thenBranch), st4)
          | (.error e, st4) => (.error e, st4)

/-- `Parser::parse_else_branch` (including the `else if` chain). -/
def parse_else_branch : Nat → ParserState →
    Except ParseError Statement × ParserState
  | 0, st => (.error .outOfFuel, st)
  | fuel + 1, st =>
    match Parser.expect [.elseKeyword] st with
    | (.error e, st1) => (.error e, st1)
    | (.ok _, st1) =>
      match st1.tokens with
      | [] => (.error .tokensExhausted, st1)
      | t :: _ =>
        if t.kind = .ifKeyword then parse_if_statement fuel st1
        else
          match parse_statements_until fuel [.endKeyword] st1 with
          | (.error e, st2) => (.error e, st2)
          | (.ok elseBranch, st2) =>
            match Parser.expect [.endKeyword] st2 with
            | (.ok _, st3) => (.ok elseBranch, st3)
            | (.error e, st3) => (.error e, st3)

/-- `Parser::parse_while_statement`. -/
def parse_while_statement : Nat → ParserState →
    Except ParseError Statement × ParserState
  | 0, st => (.error .outOfFuel, st)
  | fuel + 1, st =>
    match Parser.expect [.whileKeyword] st with
    | (.error e, st1) => (.error e, st1)
    | (.ok _, st1) =>
      match parse_expression fuel st1 with
      | (.error e, st2) => (.error e, st2)
      | (.ok condition, st2) =>
        match Parser.expect [.doKeyword] st2 with
        | (.error e, st3) => (.error e, st3)
        | (.ok _, st3) =>
          match parse_statements_until fuel [.endKeyword] st3 with
          | (.error e, st4) => (.error e, st4)
          | (.ok body, st4) =>
            match Parser.expect [.endKeyword] st4 with
            | (.ok _, st5) => (.ok (.whileStatement condition body), st5)
            | (.error e, st5) => (.error e, st5)

/-- `Parser::parse_for_statement`:
`for <ident> from <expr> to <expr> [step <expr>] do … end`. -/
def parse_for_statement : Nat → ParserState →
    Except ParseError Statement × ParserState
  | 0, st => (.error .outOfFuel, st)
  | fuel + 1, st =>
    match Parser.expect [.forKeyword] st with
    | (.error e, st1) => (.error e, st1)
    | (.ok _, st1) =>
      match Parser.expect [.identifier] st1 with
      | (.error e, st2) => (.error e, st2)
      | (.ok variableToken, st2) =>
        match Parser.expect [.fromKeyword] st2 with
        | (.error e, st3) => (.error e, st3)
        | (.ok _, st3) =>
          match parse_expression fuel st3 with
          | (.error e, st4) => (.error e, st4)
          | (.ok startExpr, st4) =>
            match Parser.expect [.toKeyword] st4 with
            | (.error e, st5) => (.error e, st5)
            | (.ok _, st5) =>
              match parse_expression fuel st5 with
              | (.error e, st6) => (.error e, st6)
              | (.ok stopExpr, st6) =>
                match st6.tokens with
                | [] => (.error .tokensExhausted, st6)
                | t :: _ =>
                  match (if t.kind = .stepKeyword then
                           match st6.advance with
                           | .error e => (.error e, st6)
                           | .ok (_, st7) =>
                               match parse_expression fuel st7 with
                               | (.ok se, st8) => (.ok (some se), st8)
                               | (.error e, st8) => (.error e, st8)
                         else (.ok none, st6) :
                         Except ParseError (Option Expression) × ParserState) with
                  | (.error e, st9) => (.error e, st9)
                  | (.ok stepExpr, st9) =>
                    match Parser.expect [.doKeyword] st9 with
                    | (.error e, st10) => (.error e, st10)
                    | (.ok _, st10) =>
                      match parse_statements_until fuel [.endKeyword] st10 with
                      | (.error e, st11) => (.error e, st11)
                      | (.ok body, st11) =>
                        match Parser.expect [.endKeyword] st11 with
                        | (.ok _, st12) =>
                            (.ok (.forStatement variableToken startExpr stopExpr
                              stepExpr body), st12)
                        | (.error e, st12) => (.error e, st12)

/-- `Parser::parse_function_definition`:
`define function <ident> [with <ident>, …] as … end`. -/
def parse_function_definition : Nat → ParserState →
    Except ParseError Statement × ParserState
  | 0, st => (.error .outOfFuel, st)
  | fuel + 1, st =>
    match Parser.expect [.defineKeyword] st with
    | (.error e, st1) => (.error e, st1)
    | (.ok _, st1) =>
      match Parser.expect [.functionKeyword] st1 with
      | (.error e, st2) => (.error e, st2)
      | (.ok _, st2) =>
        match Parser.expect [.identifier] st2 with
        | (.error e, st3) => (.error e, st3)
        | (.ok functionName, st3) =>
          match st3.tokens with
          | [] => (.error .tokensExhausted, st3)
          | t :: _ =>
            match (if t.kind = .withKeyword then
                     match st3.advance with
                     | .error e => (.error e, st3)
                     | .ok (_, st4) =>
                         parse_tokens_list fuel .identifier (some .comma) st4
                   else (.ok [], st3) :
                   Except ParseError (List Token) × ParserState) with
            | (.error e, st5) => (.error e, st5)
            | (.ok arguments, st5) =>
              match Parser.expect [.asKeyword] st5 with
              | (.error e, st6) => (.error e, st6)
              | (.ok _, st6) =>
                match parse_statements_until fuel [.endKeyword] st6 with
                | (.error e, st7) => (.error e, st7)
                | (.ok body, st7) =>
                  match Parser.expect [.endKeyword] st7 with
                  | (.ok _, st8) =>
                      (.ok (.functionDefinition functionName arguments body), st8)
                  | (.error e, st8) => (.error e, st8)

/-- `Parser::parse_function_call` (the inlined `FunctionCallData`). -/
def parse_function_call : Nat → ParserState →
    Except ParseError (Token × List Expression) × ParserState
  | 0, st => (.error .outOfFuel, st)
  | fuel + 1, st =>
    match Parser.expect [.identifier] st with
    | (.error e, st1) => (.error e, st1)
    | (.ok functionName, st1) =>
      match parse_function_call_arguments fuel st1 with
      | (.ok arguments, st2) => (.ok (functionName, arguments), st2)
      | (.error e, st2) => (.error e, st2)

/-- The comma loop of `Parser::parse_function_call_arguments_list`. -/
def parse_call_arguments_loop : Nat → List Expression → ParserState →
    Except ParseError (List Expression) × ParserState
  | 0, _, st => (.error .outOfFuel, st)
  | fuel + 1, acc, st =>
    match st.tokens with
    | [] => (.error .tokensExhausted, st)
    | t :: _ =>
      if t.kind = .comma then
        match st.advance with
        | .error e => (.error e, st)
        | .ok (_, st1) =>
          match parse_expression fuel st1 with
          | (.ok arg, st2) => parse_call_arguments_loop fuel (acc ++ [arg]) st2
          | (.error e, st2) => (.error e, st2)
      else (.ok acc, st)

/-- `Parser::parse_function_call_arguments_list`: one expression, then
comma-prefixed repetitions. -/
def parse_function_call_arguments_list : Nat → ParserState →
    Except ParseError (List Expression) × ParserState
  | 0, st => (.error .outOfFuel, st)
  | fuel + 1, st =>
    match parse_expression fuel st with
    | (.error e, st1) => (.error e, st1)
    | (.ok first, st1) => parse_call_arguments_loop fuel [first] st1

/-- `Parser::parse_function_call_arguments`: parenthesized, possibly empty
argument list. -/
def parse_function_call_arguments : Nat → ParserState →
    Except ParseError (List Expression) × ParserState
  | 0, st => (.error .outOfFuel, st)
  | fuel + 1, st =>
    match Parser.expect [.leftParen] st with
    | (.error e, st1) => (.error e, st1)
    | (.ok _, st1) =>
      match st1.tokens with
      | [] => (.error .tokensExhausted, st1)
      | t :: _ =>
        match (if t.kind = .rightParen then (.ok [], st1)
               else parse_function_call_arguments_list fuel st1 :
               Except ParseError (List Expression) × ParserState) with
        | (.error e, st2) => (.error e, st2)
        | (.ok arguments, st2) =>
          match Parser.expect [.rightParen] st2 with
          | (.ok _, st3) => (.ok arguments, st3)
          | (.error e, st3) => (.error e, st3)

/-- `Parser::parse_return_statement`: `return [(expr)]`. -/
def parse_return_statement : Nat → ParserState →
    Except ParseError Statement × ParserState
  | 0, st => (.error .outOfFuel, st)
  | fuel + 1, st =>
    match Parser.expect [.returnKeyword] st with
    | (.error e, st1) => (.error e, st1)
    | (.ok returnToken, st1) =>
      match st1.tokens with
      | [] => (.error .tokensExhausted, st1)
      | t :: _ =>
        if t.kind = .leftParen then
          match parse_grouped_expression fuel st1 with
          | (.ok e, st2) => (.ok (.returnStatement returnToken.span (some e)), st2)
          | (.error e, st2) => (.error e, st2)
        else (.ok (.returnStatement returnToken.span none), st1)

/-- `Parser::parse_expression`: precedence climbing from minimum 0. -/
def parse_expression : Nat → ParserState →
    Except ParseError Expression × ParserState
  | 0, st => (.error .outOfFuel, st)
  | fuel + 1, st => parse_expression_with_precedence fuel 0 st

/-- `Parser::parse_expression_with_precedence`: unary-prefix step followed
by the binary-operator loop. -/
def parse_expression_with_precedence : Nat → Nat → ParserState →
    Except ParseError Expression × ParserState
  | 0, _, st => (.error .outOfFuel, st)
  | fuel + 1, minPrecedence, st =>
    match parse_unary_expression fuel st with
    | (.error e, st1) => (.error e, st1)
    | (.ok left, st1) => parse_binary_loop fuel minPrecedence left st1

/-- The `while let Ok(op) = BinaryOperator::try_from(peek)` loop of
`Parser::parse_expression_with_precedence`: for each operator of
precedence ≥ the minimum, consume it and parse the right operand with
minimum `precedence + 1` (left associativity), folding into a
left-nested tree. -/
def parse_binary_loop : Nat → Nat → Expression → ParserState →
    Except ParseError Expression × ParserState
  | 0, _, _, st => (.error .outOfFuel, st)
  | fuel + 1, minPrecedence, left, st =>
    match st.tokens with
    | [] => (.error .tokensExhausted, st)
    | t :: rest =>
      match BinaryOperator.tryFromKind t.kind with
      | none => (.ok left, st)
      | some op =>
        if op.precedence < minPrecedence then (.ok left, st)
        else
          let st1 : ParserState :=
            { st with tokens := rest
                      consumed_tokens := st.consumed_tokens ++ [t.kind] }
          match parse_expression_with_precedence fuel (op.precedence + 1) st1 with
          | (.ok right, st2) =>
              parse_binary_loop fuel minPrecedence
                (.binaryOperation left op right) st2
          | (.error e, st2) => (.error e, st2)

/-- `Parser::parse_unary_expression`: nested prefix operators before a
primary expression. -/
def parse_unary_expression : Nat → ParserState →
    Except ParseError Expression × ParserState
  | 0, st => (.error .outOfFuel, st)
  | fuel + 1, st =>
    match st.tokens with
    | [] => (.error .tokensExhausted, st)
    | t :: rest =>
      match UnaryOperator.tryFromKind t.kind with
      | some op =>
          let st1 : ParserState :=
            { st with tokens := rest
                      consumed_tokens := st.consumed_tokens ++ [t.kind] }
          match parse_unary_expression fuel st1 with
          | (.ok operand, st2) => (.ok (.unaryOperation op operand), st2)
          | (.error e, st2) => (.error e, st2)
      | none => parse_primary_expression fuel st

/-- `Parser::parse_primary_expression`: grouped expression or literal. -/
def parse_primary_expression : Nat → ParserState →
    Except ParseError Expression × ParserState
  | 0, st => (.error .outOfFuel, st)
  | fuel + 1, st =>
    match st.tokens with
    | [] => (.error .tokensExhausted, st)
    | t :: _ =>
      if t.kind = .leftParen then parse_grouped_expression fuel st
      else parse_literal_expression fuel st

/-- `Parser::parse_grouped_expression`: `( expr )`. -/
def parse_grouped_expression : Nat → ParserState →
    Except ParseError Expression × ParserState
  | 0, st => (.error .outOfFuel, st)
  | fuel + 1, st =>
    match Parser.expect [.leftParen] st with
    | (.error e, st1) => (.error e, st1)
    | (.ok _, st1) =>
      match parse_expression fuel st1 with
      | (.error e, st2) => (.error e, st2)
      | (.ok inner, st2) =>
        match Parser.expect [.rightParen] st2 with
        | (.ok _, st3) => (.ok (.grouped inner), st3)
        | (.error e, st3) => (.error e, st3)

/-- `Parser::parse_literal_expression`: number/boolean literal, variable
reference, or function call (an identifier immediately followed by `(`). -/
def parse_literal_expression : Nat → ParserState →
    Except ParseError Expression × ParserState
  | 0, st => (.error .outOfFuel, st)
  | fuel + 1, st =>
    match st.tokens with
    | [] => (.error .tokensExhausted, st)
    | t :: _ =>
      match t.kind with
      | .number =>
          match st.advance with
          | .error e => (.error e, st)
          | .ok (numberToken, st1) =>
              match parseNumberValue numberToken.value with
              | some n => (.ok (.literal (.number n) numberToken.span), st1)
              | none => (.error .numberParsePanic, st1)
      | .trueKeyword =>
          match st.advance with
          | .error e => (.error e, st)
          | .ok (tk, st1) => (.ok (.literal (.boolean true) tk.span), st1)
      | .falseKeyword =>
          match st.advance with
          | .error e => (.error e, st)
          | .ok (tk, st1) => (.ok (.literal (.boolean false) tk.span), st1)
      | .identifier =>
          match st.advance with
          | .error e => (.error e, st)
          | .ok (identifierToken, st1) =>
            match st1.tokens with
            | [] => (.error .tokensExhausted, st1)
            | t2 :: _ =>
              if t2.kind ≠ .leftParen then
                (.ok (.variableRef identifierToken), st1)
              else
                match parse_function_call_arguments fuel st1 with
                | (.ok arguments, st2) =>
                    (.ok (.functionCall identifierToken arguments), st2)
                | (.error e, st2) => (.error e, st2)
      | _ =>
          (.error (.diag (Diagnostic.unexpected_token
            [.number, .identifier, .trueKeyword, .falseKeyword] t)), st)

end

/-- The statement loop of `Parser::parse`: collect statements, report
diagnostics of failed statements and resume after `recover`. -/
def parse_loop : Nat → List Statement → List Diagnostic → ParserState →
    Except ParseError (List Statement × List Diagnostic) × ParserState
  | 0, _, _, st => (.error .outOfFuel, st)
  | fuel + 1, ast, diags, st =>
    match parse_statement fuel st with
    | (.ok (some stmt), st1) => parse_loop fuel (ast ++ [stmt]) diags st1
    | (.ok none, st1) => (.ok (ast, diags), st1)
    | (.error (.diag d), st1) =>
        match Parser.recover st1 with
        | (.ok _, st2) => parse_loop fuel ast (diags ++ [d]) st2
        | (.error e, st2) => (.error e, st2)
    | (.error e, st1) => (.error e, st1)

/-- `Parser::parse`: the full parse run; the inner `Except` is the
`Result<Ast, Diagnostics>` of the source (`Err` iff the diagnostics
collection is non-empty).  The final `ParserState` is returned alongside so
that the recovery-stack claims can be stated. -/
def Parser.parse (fuel : Nat) (tokens : List Token) :
    Except ParseError (Except (List Diagnostic) (List Statement)) × ParserState :=
  match parse_loop fuel [] [] (ParserState.new tokens) with
  | (.ok (ast, diags), st) =>
      (.ok (if diags.isEmpty then .ok ast else .error diags), st)
  | (.error e, st) => (.error e, st)

end NavaCode

namespace NavaCode

/-! ## Statement vocabulary and concrete fixtures for the theorems -/

/-- The arithmetic operators (`+ - * / %`). -/
def BinaryOperator.isArithmetic : BinaryOperator → Bool
  | .add | .subtract | .multiply | .divide | .modulus => true
  | _ => false

/-- The logical operators (`and`, `or`). -/
def BinaryOperator.isLogical : BinaryOperator → Bool
  | .and | .or => true
  | _ => false

/-- The equality and relational comparison operators. -/
def BinaryOperator.isComparison : BinaryOperator → Bool
  | .equal | .notEqual | .lessThan | .greaterThan
  | .lessThanOrEqual | .greaterThanOrEqual => true
  | _ => false

/-- Classifier: is this diagnostic a variable-redefinition diagnostic? -/
def Diagnostic.isVariableRedefinition : Diagnostic → Bool
  | .variableRedefinition _ _ => true
  | _ => false

/-- The recovery-stack balance measure of a parser state: pushes minus pops
minus residual stack height.  It is `0` on `ParserState.new` and every
parsing operation preserves it, which is the sense in which the stack stays
balanced. -/
def rbal (st : ParserState) : Int :=
  (st.ghostPushes : Int) - st.ghostPops - st.recovery_states.length

/-- A fixed one-position span for concrete fixture tokens. -/
def sampleSpan : TextSpan := ⟨⟨1, 1⟩, ⟨1, 1⟩⟩

/-- A fixture token of the given kind and text. -/
def mkToken (k : TokenKind) (v : String) : Token := ⟨k, v, sampleSpan⟩

/-- A fixture identifier token. -/
def identToken (s : String) : Token := mkToken .identifier s

/-- The end-of-stream sentinel token. -/
def eofToken : Token := mkToken .endOfFile "EOF"

/-- A fixture number-literal expression. -/
def numLit (n : Int) : Expression := .literal (.number n) sampleSpan

/-- A fixture boolean-literal expression. -/
def boolLit (b : Bool) : Expression := .literal (.boolean b) sampleSpan

/-- A fixture variable-reference expression. -/
def varExpr (s : String) : Expression := .variableRef (identToken s)

/-- The loop body `set s to s * 10 + i`: appends the current value of `i`
as a decimal digit of `s`, so the final value of `s` records how many times
the body ran and with which values of `i`, in order. -/
def digitTraceBody : Statement :=
  .blockStatement
    [ .variableAssignment (identToken "s")
        (.binaryOperation
          (.binaryOperation (varExpr "s") .multiply (numLit 10))
          .add (varExpr "i")) ]

/-- `let s be 0` followed by `for i from 1 to 3 do set s to s*10+i end`. -/
def forProgramTo3 : List Statement :=
  [ .variableDeclaration (identToken "s") (numLit 0),
    .forStatement (identToken "i") (numLit 1) (numLit 3) none digitTraceBody ]

/-- `let s be 0` followed by
`for i from 1 to 5 step 2 do set s to s*10+i end`. -/
def forProgramStep2 : List Statement :=
  [ .variableDeclaration (identToken "s") (numLit 0),
    .forStatement (identToken "i") (numLit 1) (numLit 5) (some (numLit 2))
      digitTraceBody ]

/-- `let r be 1 / 0`. -/
def divByZeroProgram : List Statement :=
  [ .variableDeclaration (identToken "r")
      (.binaryOperation (numLit 1) .divide (numLit 0)) ]

/-- The canonical token kind lexed for each binary operator (the inverse of
`BinaryOperator.tryFromKind`). -/
def opTokenKind : BinaryOperator → TokenKind
  | .add => .plus
  | .subtract => .minus
  | .multiply => .star
  | .divide => .slash
  | .modulus => .percent
  | .equal => .equalEqual
  | .notEqual => .notEqual
  | .lessThan => .lessThan
  | .greaterThan => .greaterThan
  | .lessThanOrEqual => .lessThanOrEqual
  | .greaterThanOrEqual => .greaterThanOrEqual
  | .and => .andKeyword
  | .or => .orKeyword

/-- A fixture token lexing the given binary operator. -/
def opToken (op : BinaryOperator) : Token := mkToken (opTokenKind op) ""

/-- The token stream of a binary-operator chain continuation:
`op₁ x₁ op₂ x₂ …`. -/
def chainTokens (ops : List (BinaryOperator × Token)) : List Token :=
  (ops.map (fun p => [opToken p.1, p.2])).flatten

/-- Left-associative fold of a binary-operator chain onto a start
expression: `((x₀ op₁ x₁) op₂ x₂) …`. -/
def chainFold (x0 : Expression) (ops : List (BinaryOperator × Token)) :
    Expression :=
  ops.foldl (fun acc p => .binaryOperation acc p.1 (.variableRef p.2)) x0

/-- A symbol table whose global scope binds `x : int`. -/
def tableWithGlobalX : SymbolsTable :=
  SymbolsTable.new.define_variable ⟨"x", .int⟩ 0

/-- A resolver sitting in the global scope with `x` bound in that exact
scope. -/
def resolverInScopeX : Resolver :=
  { Resolver.new with symbols_table := tableWithGlobalX }

/-- A resolver sitting in a child scope of the global scope; `x` is bound
only in the enclosing global scope. -/
def resolverShadowX : Resolver :=
  { Resolver.new with
      symbols_table := (tableWithGlobalX.enter_scope 0).1
      current_scope_id := (tableWithGlobalX.enter_scope 0).2 }

/-- A two-scope runtime stack: the outer (global) scope binds `x ↦ 1` and
`y ↦ 7`, the inner scope binds `x ↦ 2`. -/
def outerScopeFix : RuntimeScope :=
  (RuntimeScope.new.set_variable "x" (.number 1)).set_variable "y" (.number 7)

/-- The inner scope of the two-scope fixture. -/
def innerScopeFix : RuntimeScope :=
  RuntimeScope.new.set_variable "x" (.number 2)

end NavaCode

namespace NavaCode

/-! ## Theorems

Shared helper lemmas first, then one theorem per claim (and a witness
theorem for each claim theorem that carries hypotheses). -/

/-- A successful `get_accumulator_value` returns the held value and clears
the accumulator. -/
theorem get_accumulator_value_ok {st : InterpState} {v : RuntimeValue}
    {st' : InterpState} (h : get_accumulator_value st = .ok (v, st')) :
    st.accumulator = some v ∧ st' = { st with accumulator := none } := by
  unfold get_accumulator_value at h
  cases ha : st.accumulator with
  | none => rw [ha] at h; exact absurd h (by simp)
  | some w => rw [ha] at h; simp_all

/-- Runtime variable lookup prefers the innermost (last) scope. -/
theorem get_variable_append_last (xs : List RuntimeScope) (s : RuntimeScope)
    (name : String) :
    get_variable (xs ++ [s]) name
      = match s name with
        | some v => some v
        | none => get_variable xs name := by
  induction xs with
  | nil => simp [get_variable]; cases s name <;> simp
  | cons x rest ih =>
      simp only [List.cons_append]
      rw [get_variable, ih]
      cases s name <;> simp [get_variable]

/-- Updating the last scope of a non-empty stack. -/
theorem updateLastScope_append_last (xs : List RuntimeScope)
    (s : RuntimeScope) (f : RuntimeScope → RuntimeScope) :
    updateLastScope f (xs ++ [s]) = some (xs ++ [f s]) := by
  induction xs with
  | nil => simp [updateLastScope]
  | cons x rest ih =>
      simp only [List.cons_append]
      rw [updateLastScope, ih]

/-- A `for` statement whose start bound already exceeds its end bound
executes its body zero times: the termination comparison `current > end`
runs before the first iteration. -/
theorem forStatement_no_iteration_of_start_gt_stop :
    ∀ (a b : Int), a > b →
    ∀ (fuel : Nat) (v : Token) (body : Statement) (st : InterpState),
      execStmt (fuel + 2) (.forStatement v (numLit a) (numLit b) none body) st
        = .ok { st with accumulator := none } := by
  intro a b hab fuel v body st
  have hgt : builtin.gt (.number a) (.number b) = .ok (.bool true) := by
    simp [builtin.gt, hab]
  simp only [execStmt, evalExpr, numLit, get_accumulator_value]
  simp only [register_variable, push_scope, updateLastScope_append_last]
  simp only [forLoop, get_variable_append_last, RuntimeScope.set_variable,
    RuntimeScope.new]
  simp [hgt, pop_scope, List.dropLast_concat]

/-- A `for` statement with no step behaves exactly like one whose step is
the literal `1`. -/
theorem forStatement_default_step_eq :
    ∀ (fuel : Nat) (v : Token) (startE stopE : Expression) (body : Statement)
      (st : InterpState) (sp : TextSpan),
      execStmt fuel (.forStatement v startE stopE none body) st
        = execStmt fuel
            (.forStatement v startE stopE (some (.literal (.number 1) sp)) body)
            st := by
  intro fuel v startE stopE body st sp
  cases fuel with
  | zero => rfl
  | succ n =>
      simp only [execStmt]
      cases h1 : evalExpr n startE st with
      | error e => rfl
      | ok st1 =>
        dsimp only
        cases h2 : get_accumulator_value st1 with
        | error e => rfl
        | ok p1 =>
          obtain ⟨sv, st2⟩ := p1
          dsimp only
          cases h3 : evalExpr n stopE st2 with
          | error e => rfl
          | ok st3 =>
            dsimp only
            cases h4 : get_accumulator_value st3 with
            | error e => rfl
            | ok p2 =>
              obtain ⟨ev, st4⟩ := p2
              dsimp only
              cases n with
              | zero => simp [evalExpr] at h1
              | succ m =>
                  have h4' := get_accumulator_value_ok h4
                  simp only [evalExpr, get_accumulator_value, h4'.2]

/-- C2: `for i from 1 to 3 do … end` runs its body exactly 3 times with
`i` bound to 1, 2, 3 in order (the digit trace of `s` is `123`; the upper
bound is inclusive), `for i from 1 to 5 step 2` runs with `i` = 1, 3, 5
(trace `135`); an absent step behaves exactly like the literal step `1`;
and the `current > end` comparison runs before each iteration, so a loop
whose start exceeds its end runs its body zero times and leaves the state
unchanged (up to the spent accumulator). -/
theorem c2_for_loop_semantics :
    ((interpret 100 forProgramTo3).map (fun st => st.globalLookup "s")
       = .ok (some (.number 123)))
    ∧ ((interpret 100 forProgramStep2).map (fun st => st.globalLookup "s")
       = .ok (some (.number 135)))
    ∧ (∀ (fuel : Nat) (v : Token) (startE stopE : Expression)
        (body : Statement) (st : InterpState) (sp : TextSpan),
        execStmt fuel (.forStatement v startE stopE none body) st
          = execStmt fuel
              (.forStatement v startE stopE
                (some (.literal (.number 1) sp)) body) st)
    ∧ (∀ (a b : Int), a > b →
        ∀ (fuel : Nat) (v : Token) (body : Statement) (st : InterpState),
        execStmt (fuel + 2) (.forStatement v (numLit a) (numLit b) none body) st
          = .ok { st with accumulator := none }) :=
  ⟨by rfl, by rfl, forStatement_default_step_eq,
   forStatement_no_iteration_of_start_gt_stop⟩

/-- Witness for C2 at concrete inputs: `2 > 1`, and
`for i from 2 to 1 do end` runs zero iterations. -/
theorem c2_for_loop_semantics_witness :
    (2 : Int) > 1
    ∧ execStmt 2
        (.forStatement (identToken "i") (numLit 2) (numLit 1) none
          (.blockStatement [])) InterpState.new
      = .ok { InterpState.new with accumulator := none } :=
  ⟨by decide,
   c2_for_loop_semantics.2.2.2 2 1 (by decide) 0 (identToken "i")
     (.blockStatement []) InterpState.new⟩

/-- C7: the runtime division builtin errors with `DivisionByZero` exactly
when the divisor is `0` and otherwise produces the `i64` quotient, and the
program `let r be 1 / 0` aborts with a division-by-zero runtime error. -/
theorem c7_division_by_zero :
    (∀ (l r : Int),
      builtin.div (.number l) (.number r)
        = if r = 0 then .error .divisionByZero
          else .ok (.number (Int.tdiv l r)))
    ∧ interpret 10 divByZeroProgram = .error (.runtime .divisionByZero) :=
  ⟨fun _ _ => rfl, rfl⟩

/-- C8: `expect` consumes and returns the current token when its kind is
expected, and otherwise reports an unexpected-token diagnostic naming the
found token and the acceptable kinds while leaving the whole parser state
(in particular the token stream position) unchanged. -/
theorem c8_expect_consume_or_fail :
    ∀ (expectedTokens : List TokenKind) (t : Token) (rest : List Token)
      (st : ParserState),
      st.tokens = t :: rest →
      (t.kind ∈ expectedTokens →
        Parser.expect expectedTokens st
          = (.ok t, { st with tokens := rest
                              consumed_tokens := st.consumed_tokens ++ [t.kind] }))
      ∧ (t.kind ∉ expectedTokens →
        Parser.expect expectedTokens st
          = (.error (.diag (.unexpectedToken expectedTokens t.value t.span)),
             st)) := by
  intro expectedTokens t rest st h
  constructor <;> intro hmem <;>
    simp [Parser.expect, h, hmem, Diagnostic.unexpected_token]

/-- Witness for C8: a matching `let` token is consumed; a mismatching
`set` token produces the diagnostic and leaves the state unchanged. -/
theorem c8_expect_consume_or_fail_witness :
    ((mkToken .letKeyword "let").kind ∈ [TokenKind.letKeyword]
      ∧ Parser.expect [.letKeyword]
          (ParserState.new [mkToken .letKeyword "let", eofToken])
        = (.ok (mkToken .letKeyword "let"),
           { ParserState.new [mkToken .letKeyword "let", eofToken] with
               tokens := [eofToken]
               consumed_tokens :=
                 (ParserState.new
                   [mkToken .letKeyword "let", eofToken]).consumed_tokens
                   ++ [(mkToken .letKeyword "let").kind] }))
    ∧ ((mkToken .setKeyword "set").kind ∉ [TokenKind.letKeyword]
      ∧ Parser.expect [.letKeyword]
          (ParserState.new [mkToken .setKeyword "set", eofToken])
        = (.error (.diag (.unexpectedToken [.letKeyword]
            (mkToken .setKeyword "set").value (mkToken .setKeyword "set").span)),
           ParserState.new [mkToken .setKeyword "set", eofToken])) :=
  ⟨⟨by decide,
    (c8_expect_consume_or_fail [.letKeyword] (mkToken .letKeyword "let")
      [eofToken] (ParserState.new [mkToken .letKeyword "let", eofToken])
      rfl).1 (by decide)⟩,
   ⟨by decide,
    (c8_expect_consume_or_fail [.letKeyword] (mkToken .setKeyword "set")
      [eofToken] (ParserState.new [mkToken .setKeyword "set", eofToken])
      rfl).2 (by decide)⟩⟩

/-- C9: calling a function name absent from the pre-scanned function table
is a silent no-op, both as a statement and as an expression: no error, no
scope push/pop, accumulator untouched — the state is returned unchanged. -/
theorem c9_unknown_function_call_noop :
    ∀ (fuel : Nat) (functionName : Token) (args : List Expression)
      (st : InterpState),
      st.functions functionName.value = none →
      execStmt (fuel + 2) (.functionCall functionName args) st = .ok st
      ∧ evalExpr (fuel + 2) (.functionCall functionName args) st = .ok st := by
  intro fuel functionName args st h
  constructor <;> simp [execStmt, evalExpr, visitFunctionCall, h]

/-- Witness for C9: the empty function table does not know `"f"`, and
calling it leaves the fresh interpreter state unchanged. -/
theorem c9_unknown_function_call_noop_witness :
    InterpState.new.functions (identToken "f").value = none
    ∧ execStmt 2 (.functionCall (identToken "f") []) InterpState.new
        = .ok InterpState.new
    ∧ evalExpr 2 (.functionCall (identToken "f") []) InterpState.new
        = .ok InterpState.new :=
  ⟨rfl,
   (c9_unknown_function_call_noop 0 (identToken "f") [] InterpState.new rfl).1,
   (c9_unknown_function_call_noop 0 (identToken "f") [] InterpState.new rfl).2⟩

/-- C10: over booleans, `==` succeeds with the boolean equality while `!=`
fails with an invalid-operation runtime error (the not-equal builtin
accepts only numbers), both at the builtin level and when the interpreter
evaluates the corresponding binary operations. -/
theorem c10_equality_asymmetric_on_booleans :
    ∀ (l r : Bool),
      builtin.eq (.bool l) (.bool r) = .ok (.bool (l = r))
      ∧ builtin.not_eq (.bool l) (.bool r) = .error .invalidOperation
      ∧ ∀ (fuel : Nat) (st : InterpState),
          evalExpr (fuel + 2) (.binaryOperation (boolLit l) .equal (boolLit r)) st
            = .ok { st with accumulator := some (.bool (l = r)) }
          ∧ evalExpr (fuel + 2)
              (.binaryOperation (boolLit l) .notEqual (boolLit r)) st
            = .error (.runtime .invalidOperation) := by
  intro l r
  refine ⟨rfl, rfl, ?_⟩
  intro fuel st
  constructor <;> rfl

end NavaCode

namespace NavaCode

/-- C1 counterexample: `bool < bool` is a relational comparison whose
operands are not both integers, yet the operator-type table resolves it to
`int` (not `unresolved`) through its wildcard comparison rows, and the
resolver visiting `true < false` reports no diagnostic at all — against
the claim that such a combination yields `unresolved` plus an
incompatible-binary-operation diagnostic. -/
theorem c1_relational_on_bools_not_unresolved :
    resolve_binary_operation_type .bool .bool .lessThan = .int
    ∧ resolve_binary_operation_type .bool .bool .lessThan ≠ .unresolved
    ∧ (Resolver.new.visitExpression
        (.binaryOperation (boolLit true) .lessThan (boolLit false))).type_accumulator
        = .int
    ∧ (Resolver.new.visitExpression
        (.binaryOperation (boolLit true) .lessThan (boolLit false))).diagnostics
        = [] := by
  refine ⟨rfl, by decide, ?_, ?_⟩ <;>
    simp [Resolver.visitExpression, Resolver.new, boolLit,
      resolve_binary_operation_type]

/-- C1 amended: the resolver infers the binary-operation type from the
fixed table and reports an incompatible-binary-operation diagnostic
(naming operator, operand types and the union span) exactly for the
combinations the table maps to `unresolved` — which are precisely the
arithmetic operators with operands not both `int` and the logical
operators with operands not both `bool`; the equality and relational
comparison operators match wildcard rows (`==` yields `bool`, the others
yield `int` for every operand-type combination) and are never diagnosed. -/
theorem c1_binary_operation_typing :
    ∀ (lt rt : Ty) (op : BinaryOperator),
      (resolve_binary_operation_type lt rt op = .unresolved ↔
        ((op.isArithmetic = true ∧ ¬(lt = .int ∧ rt = .int))
          ∨ (op.isLogical = true ∧ ¬(lt = .bool ∧ rt = .bool))))
      ∧ (op.isComparison = true →
          resolve_binary_operation_type lt rt op ≠ .unresolved)
      ∧ ∀ (r : Resolver) (l rhs : Expression),
          ((r.visitExpression (.binaryOperation l op rhs)).type_accumulator
            = resolve_binary_operation_type
                (r.visitExpression l).type_accumulator
                ((r.visitExpression l).visitExpression rhs).type_accumulator op)
          ∧ ((r.visitExpression (.binaryOperation l op rhs)).diagnostics
            = ((r.visitExpression l).visitExpression rhs).diagnostics ++
                (if resolve_binary_operation_type
                    (r.visitExpression l).type_accumulator
                    ((r.visitExpression l).visitExpression rhs).type_accumulator op
                    = .unresolved then
                  [.incompatibleBinaryOperation
                    (r.visitExpression l).type_accumulator
                    ((r.visitExpression l).visitExpression rhs).type_accumulator
                    op (l.span.union rhs.span)]
                else [])) := by
  intro lt rt op
  refine ⟨by cases lt <;> cases rt <;> cases op <;> decide,
          by cases lt <;> cases rt <;> cases op <;> decide, ?_⟩
  intro r l rhs
  constructor <;>
    (simp only [Resolver.visitExpression]
     split <;> simp_all [Resolver.report])

/-- Witness for C1 (amended) at `<` on booleans. -/
theorem c1_binary_operation_typing_witness :
    BinaryOperator.isComparison .lessThan = true
    ∧ resolve_binary_operation_type .bool .bool .lessThan ≠ .unresolved :=
  ⟨by decide, (c1_binary_operation_typing .bool .bool .lessThan).2.1 (by decide)⟩

end NavaCode

namespace NavaCode

/-- `set_variable_value` fails exactly when no scope binds the name. -/
theorem set_variable_value_none_iff :
    ∀ (scopes : List RuntimeScope) (name : String) (v : RuntimeValue),
      set_variable_value scopes name v = none ↔ ∀ sc ∈ scopes, sc name = none := by
  intro scopes name v
  induction scopes with
  | nil => simp [set_variable_value]
  | cons s rest ih =>
      simp only [set_variable_value]
      cases hr : set_variable_value rest name v with
      | some rest2 =>
          simp only []
          constructor
          · intro h; exact absurd h (by simp)
          · intro h
            have : set_variable_value rest name v = none :=
              ih.mpr (fun sc hsc => h sc (List.mem_cons_of_mem _ hsc))
            rw [this] at hr; exact absurd hr (by simp)
      | none =>
          by_cases hs : (s name).isSome
          · simp only [hs, if_true]
            constructor
            · intro h; exact absurd h (by simp)
            · intro h
              have : s name = none := h s (List.mem_cons_self _ _)
              rw [this] at hs; simp at hs
          · simp only [hs, if_false]
            have hsn : s name = none := by
              cases hval : s name with
              | none => rfl
              | some w => rw [hval] at hs; simp at hs
            constructor
            · intro _ sc hsc
              rcases List.mem_cons.mp hsc with h1 | h1
              · rw [h1]; exact hsn
              · exact (ih.mp hr) sc h1
            · intro _; rfl

/-- A successful `set_variable_value` updates exactly the innermost scope
already containing the name and leaves every other scope untouched. -/
theorem set_variable_value_some_spec :
    ∀ (scopes : List RuntimeScope) (name : String) (v : RuntimeValue)
      (scopes2 : List RuntimeScope),
      set_variable_value scopes name v = some scopes2 →
      ∃ i sc, scopes.get? i = some sc ∧ (sc name).isSome = true
        ∧ (∀ j sc2, i < j → scopes.get? j = some sc2 → sc2 name = none)
        ∧ scopes2 = scopes.set i (sc.set_variable name v) := by
  intro scopes name v
  induction scopes with
  | nil => intro scopes2 h; simp [set_variable_value] at h
  | cons s rest ih =>
      intro scopes2 h
      simp only [set_variable_value] at h
      cases hr : set_variable_value rest name v with
      | some rest2 =>
          rw [hr] at h
          simp only [Option.some.injEq] at h
          obtain ⟨i, sc, h1, h2, h3, h4⟩ := ih rest2 hr
          refine ⟨i + 1, sc, by simpa using h1, h2, ?_, ?_⟩
          · intro j sc2 hj hget
            cases j with
            | zero => omega
            | succ j =>
                exact h3 j sc2 (by omega) (by simpa using hget)
          · rw [← h, h4]; rfl
      | none =>
          rw [hr] at h
          by_cases hs : (s name).isSome
          · simp only [hs, if_true, Option.some.injEq] at h
            refine ⟨0, s, rfl, hs, ?_, by rw [← h]; rfl⟩
            intro j sc2 hj hget
            cases j with
            | zero => omega
            | succ j =>
                exact (set_variable_value_none_iff rest name v).mp hr sc2
                  (List.get?_mem (by simpa using hget))
          · simp [hs] at h

/-- The interpreter's assignment hook in terms of `set_variable_value`. -/
theorem execStmt_assignment_eq :
    ∀ (fuel : Nat) (name : Token) (value : Expression) (st st1 : InterpState)
      (v : RuntimeValue),
      evalExpr fuel value st = .ok st1 → st1.accumulator = some v →
      execStmt (fuel + 1) (.variableAssignment name value) st
        = match set_variable_value st1.scopes name.value v with
          | some scs => .ok { st1 with accumulator := none, scopes := scs }
          | none => .error (.runtime (.variableNotFound name.value)) := by
  intro fuel name value st st1 v h1 h2
  simp only [execStmt]
  rw [h1]
  dsimp only
  unfold get_accumulator_value
  rw [h2]

/-- The resolver reports `undefined_variable` for an assignment to a name
unbound in the whole scope chain, and otherwise only a possible type
mismatch. -/
theorem resolver_assignment_diag :
    ∀ (r : Resolver) (name : Token) (value : Expression),
      ((r.visitExpression value).symbols_table.lookup_variable name.value
          (r.visitExpression value).current_scope_id = none →
        (r.visit_variable_assignement name value).diagnostics
          = (r.visitExpression value).diagnostics
              ++ [.undefinedVariable name.value name.span])
      ∧ (∀ sym,
          (r.visitExpression value).symbols_table.lookup_variable name.value
            (r.visitExpression value).current_scope_id = some sym →
          (r.visit_variable_assignement name value).diagnostics
            = (r.visitExpression value).diagnostics ++
                (if sym.sym_type ≠ (r.visitExpression value).type_accumulator
                 then [.variableTypeMismatch name.value sym.sym_type
                   (r.visitExpression value).type_accumulator name.span]
                 else [])) := by
  intro r name value
  constructor
  · intro h
    simp only [Resolver.visit_variable_assignement]
    rw [h]
    simp [Resolver.report, Diagnostic.undefined_variable]
  · intro sym h
    simp only [Resolver.visit_variable_assignement]
    rw [h]
    dsimp only
    split <;> simp_all [Resolver.report, Diagnostic.variable_type_mismatch]

/-- C5: assignment never creates a binding.  `set_variable_value` fails
(a fatal `VariableNotFound` runtime error) exactly when no scope binds the
name; on success it overwrites the name in the innermost scope already
containing it, leaving every other scope, every other key, and the
binding domain unchanged; the interpreter's assignment hook follows it;
and the resolver reports an undefined-variable diagnostic exactly for an
assignment to a name unbound anywhere in the enclosing scope chain. -/
theorem c5_assignment_overwrites_nearest :
    (∀ (scopes : List RuntimeScope) (name : String) (v : RuntimeValue),
      set_variable_value scopes name v = none ↔ ∀ sc ∈ scopes, sc name = none)
    ∧ (∀ (scopes : List RuntimeScope) (name : String) (v : RuntimeValue)
        (scopes2 : List RuntimeScope),
        set_variable_value scopes name v = some scopes2 →
        ∃ i sc, scopes.get? i = some sc ∧ (sc name).isSome = true
          ∧ (∀ j sc2, i < j → scopes.get? j = some sc2 → sc2 name = none)
          ∧ scopes2 = scopes.set i (sc.set_variable name v)
          ∧ (sc.set_variable name v) name = some v
          ∧ (∀ k, k ≠ name → (sc.set_variable name v) k = sc k)
          ∧ (∀ k, ((sc.set_variable name v) k).isSome = (sc k).isSome))
    ∧ (∀ (fuel : Nat) (name : Token) (value : Expression) (st st1 : InterpState)
        (v : RuntimeValue),
        evalExpr fuel value st = .ok st1 → st1.accumulator = some v →
        execStmt (fuel + 1) (.variableAssignment name value) st
          = match set_variable_value st1.scopes name.value v with
            | some scs => .ok { st1 with accumulator := none, scopes := scs }
            | none => .error (.runtime (.variableNotFound name.value)))
    ∧ (∀ (r : Resolver) (name : Token) (value : Expression),
        ((r.visitExpression value).symbols_table.lookup_variable name.value
            (r.visitExpression value).current_scope_id = none →
          (r.visit_variable_assignement name value).diagnostics
            = (r.visitExpression value).diagnostics
                ++ [.undefinedVariable name.value name.span])
        ∧ (∀ sym,
            (r.visitExpression value).symbols_table.lookup_variable name.value
              (r.visitExpression value).current_scope_id = some sym →
            (r.visit_variable_assignement name value).diagnostics
              = (r.visitExpression value).diagnostics ++
                  (if sym.sym_type ≠ (r.visitExpression value).type_accumulator
                   then [.variableTypeMismatch name.value sym.sym_type
                     (r.visitExpression value).type_accumulator name.span]
                   else []))) := by
  refine ⟨set_variable_value_none_iff, ?_, execStmt_assignment_eq,
    resolver_assignment_diag⟩
  intro scopes name v scopes2 h
  obtain ⟨i, sc, h1, h2, h3, h4⟩ := set_variable_value_some_spec scopes name v scopes2 h
  refine ⟨i, sc, h1, h2, h3, h4, ?_, ?_, ?_⟩
  · simp [RuntimeScope.set_variable]
  · intro k hk; simp [RuntimeScope.set_variable, hk]
  · intro k
    by_cases hk : k = name
    · subst hk; simp [RuntimeScope.set_variable, h2]
    · simp [RuntimeScope.set_variable, hk]

/-- Witness for C5: on the stack `[outer (x↦1, y↦7), inner (x↦2)]`,
assigning `z` is a fatal variable-not-found error, while assigning `x`
overwrites the inner scope; and the resolver reports `undefined_variable`
for `set z to 0` in a fresh resolver. -/
theorem c5_assignment_overwrites_nearest_witness :
    (evalExpr 1 (numLit 5)
        ({ accumulator := none, scopes := [outerScopeFix, innerScopeFix],
           functions := fun _ => none } : InterpState)
      = .ok { accumulator := some (.number 5),
              scopes := [outerScopeFix, innerScopeFix],
              functions := fun _ => none })
    ∧ execStmt 2 (.variableAssignment (identToken "z") (numLit 5))
        ({ accumulator := none, scopes := [outerScopeFix, innerScopeFix],
           functions := fun _ => none } : InterpState)
      = .error (.runtime (.variableNotFound "z"))
    ∧ execStmt 2 (.variableAssignment (identToken "x") (numLit 5))
        ({ accumulator := none, scopes := [outerScopeFix, innerScopeFix],
           functions := fun _ => none } : InterpState)
      = .ok { accumulator := none,
              scopes := [outerScopeFix, innerScopeFix.set_variable "x" (.number 5)],
              functions := fun _ => none }
    ∧ ((Resolver.new.visitExpression (numLit 0)).symbols_table.lookup_variable
          "z" (Resolver.new.visitExpression (numLit 0)).current_scope_id = none
        ∧ (Resolver.new.visit_variable_assignement (identToken "z") (numLit 0)).diagnostics
          = (Resolver.new.visitExpression (numLit 0)).diagnostics
              ++ [.undefinedVariable "z" sampleSpan]) := by
  refine ⟨rfl, ?_, ?_, ?_, ?_⟩
  · exact c5_assignment_overwrites_nearest.2.2.1 1 (identToken "z") (numLit 5)
      _ _ (.number 5) rfl rfl
  · exact c5_assignment_overwrites_nearest.2.2.1 1 (identToken "x") (numLit 5)
      _ _ (.number 5) rfl rfl
  · simp [Resolver.visitExpression, Resolver.new, numLit,
      SymbolsTable.lookup_variable, lookupVariableAux, SymbolsTable.new,
      Scope.lookup, Scope.new_global]
  · exact (c5_assignment_overwrites_nearest.2.2.2 Resolver.new (identToken "z")
      (numLit 0)).1 (by
        simp [Resolver.visitExpression, Resolver.new, numLit,
          SymbolsTable.lookup_variable, lookupVariableAux, SymbolsTable.new,
          Scope.lookup, Scope.new_global])

end NavaCode

namespace NavaCode

/-- Expression visits only append diagnostics, and never append a
variable-redefinition diagnostic. -/
theorem visitExpression_diags_no_redefinition :
    ∀ (r : Resolver) (e : Expression),
      ∃ l, (r.visitExpression e).diagnostics = r.diagnostics ++ l
        ∧ ∀ d ∈ l, d.isVariableRedefinition = false := by
  apply Resolver.visitExpression.induct
    (fun r e => ∃ l, (r.visitExpression e).diagnostics = r.diagnostics ++ l
      ∧ ∀ d ∈ l, d.isVariableRedefinition = false)
    (fun r functionName arguments => ∃ l,
      (Resolver.visitFunctionCall r functionName arguments).diagnostics
        = r.diagnostics ++ l
      ∧ ∀ d ∈ l, d.isVariableRedefinition = false)
    (fun r arguments => ∃ l,
      (Resolver.visitExpressionList r arguments).diagnostics
        = r.diagnostics ++ l
      ∧ ∀ d ∈ l, d.isVariableRedefinition = false)
  case _ => -- number literal
    intro r n span
    exact ⟨[], by simp [Resolver.visitExpression], by simp⟩
  case _ => -- boolean literal
    intro r b span
    exact ⟨[], by simp [Resolver.visitExpression], by simp⟩
  case _ => -- variable reference, found
    intro r t symbol h
    exact ⟨[], by simp [Resolver.visitExpression, h], by simp⟩
  case _ => -- variable reference, not found
    intro r t h
    refine ⟨[Diagnostic.undefined_variable t], ?_, ?_⟩
    · simp [Resolver.visitExpression, h, Resolver.report]
    · simp [Diagnostic.undefined_variable, Diagnostic.isVariableRedefinition]
  case _ => -- binary operation, unresolved type
    intro r l operator rhs
    dsimp only
    intro hunres ih1 ih2
    obtain ⟨l1, e1, f1⟩ := ih1
    obtain ⟨l2, e2, f2⟩ := ih2
    refine ⟨l1 ++ l2 ++ [.incompatibleBinaryOperation
      (r.visitExpression l).type_accumulator
      ((r.visitExpression l).visitExpression rhs).type_accumulator operator
      (l.span.union rhs.span)], ?_, ?_⟩
    · simp only [Resolver.visitExpression]
      rw [if_pos hunres]
      simp [Resolver.report, e1, e2]
    · intro d hd
      simp only [List.append_assoc, List.mem_append, List.mem_singleton] at hd
      rcases hd with hd | hd | hd
      · exact f1 d hd
      · exact f2 d hd
      · rw [hd]; rfl
  case _ => -- binary operation, resolved type
    intro r l operator rhs
    dsimp only
    intro hres ih1 ih2
    obtain ⟨l1, e1, f1⟩ := ih1
    obtain ⟨l2, e2, f2⟩ := ih2
    refine ⟨l1 ++ l2, ?_, ?_⟩
    · simp only [Resolver.visitExpression]
      rw [if_neg hres]
      simp [e1, e2]
    · intro d hd
      rcases List.mem_append.mp hd with hd | hd
      · exact f1 d hd
      · exact f2 d hd
  case _ => -- unary operation, unresolved type
    intro r operator operand
    dsimp only
    intro hunres ih
    obtain ⟨l1, e1, f1⟩ := ih
    refine ⟨l1 ++ [.incompatibleUnaryOperation
      (r.visitExpression operand).type_accumulator operator operand.span],
      ?_, ?_⟩
    · simp only [Resolver.visitExpression]
      rw [if_pos hunres]
      simp [Resolver.report, e1]
    · intro d hd
      rcases List.mem_append.mp hd with hd | hd
      · exact f1 d hd
      · simp only [List.mem_singleton] at hd; rw [hd]; rfl
  case _ => -- unary operation, resolved type
    intro r operator operand
    dsimp only
    intro hres ih
    obtain ⟨l1, e1, f1⟩ := ih
    refine ⟨l1, ?_, f1⟩
    simp only [Resolver.visitExpression]
    rw [if_neg hres]
    simp [e1]
  case _ => -- grouped
    intro r inner ih
    obtain ⟨l1, e1, f1⟩ := ih
    exact ⟨l1, by simp only [Resolver.visitExpression]; exact e1, f1⟩
  case _ => -- function-call expression
    intro r functionName arguments ih
    obtain ⟨l1, e1, f1⟩ := ih
    exact ⟨l1, by simp only [Resolver.visitExpression]; exact e1, f1⟩
  case _ => -- visit_function_call
    intro r functionName arguments
    dsimp only
    intro ih
    obtain ⟨l1, e1, f1⟩ := ih
    have hr1 : ∃ l0,
        (match r.symbols_table.lookup_function functionName.value with
         | some functionSymbol =>
             if functionSymbol.parameters.length ≠ arguments.length then
               r.report (Diagnostic.function_arguments_mismatch functionName
                 functionSymbol.parameters.length arguments.length)
             else r
         | none => r.report (Diagnostic.undefined_function functionName)).diagnostics
          = r.diagnostics ++ l0
        ∧ ∀ d ∈ l0, d.isVariableRedefinition = false := by
      cases r.symbols_table.lookup_function functionName.value with
      | some fs =>
          by_cases hlen : fs.parameters.length ≠ arguments.length
          · refine ⟨[Diagnostic.function_arguments_mismatch functionName
              fs.parameters.length arguments.length], ?_, ?_⟩
            · simp [hlen, Resolver.report]
            · simp [Diagnostic.function_arguments_mismatch,
                Diagnostic.isVariableRedefinition]
          · exact ⟨[], by simp [hlen], by simp⟩
      | none =>
          refine ⟨[Diagnostic.undefined_function functionName], ?_, ?_⟩
          · simp [Resolver.report]
          · simp [Diagnostic.undefined_function,
              Diagnostic.isVariableRedefinition]
    obtain ⟨l0, e0, f0⟩ := hr1
    refine ⟨l0 ++ l1, ?_, ?_⟩
    · simp only [Resolver.visitFunctionCall]
      have e1i : ((match r.symbols_table.lookup_function functionName.value with
         | some functionSymbol =>
             if functionSymbol.parameters.length ≠ arguments.length then
               r.report (Diagnostic.function_arguments_mismatch functionName
                 functionSymbol.parameters.length arguments.length)
             else r
         | none => r.report
             (Diagnostic.undefined_function functionName)).visitExpressionList
          arguments).diagnostics
          = (match r.symbols_table.lookup_function functionName.value with
         | some functionSymbol =>
             if functionSymbol.parameters.length ≠ arguments.length then
               r.report (Diagnostic.function_arguments_mismatch functionName
                 functionSymbol.parameters.length arguments.length)
             else r
         | none => r.report
             (Diagnostic.undefined_function functionName)).diagnostics ++ l1 := e1
      rw [e1i, e0]
      simp
    · intro d hd
      rcases List.mem_append.mp hd with hd | hd
      · exact f0 d hd
      · exact f1 d hd
  case _ => -- argument list, nil
    intro r
    exact ⟨[], by simp [Resolver.visitExpressionList], by simp⟩
  case _ => -- argument list, cons
    intro r e rest ih1 ih2
    obtain ⟨l1, e1, f1⟩ := ih1
    obtain ⟨l2, e2, f2⟩ := ih2
    refine ⟨l1 ++ l2, ?_, ?_⟩
    · simp only [Resolver.visitExpressionList]
      rw [e2, e1]
      simp
    · intro d hd
      rcases List.mem_append.mp hd with hd | hd
      · exact f1 d hd
      · exact f2 d hd

end NavaCode

namespace NavaCode

/-- C6: a variable declaration is reported as a redefinition exactly when
the name is already bound in the exact current scope; when the name is
bound only in an enclosing scope (shadowing), or not at all, the
declaration visit adds no variable-redefinition diagnostic. -/
theorem c6_redefinition_same_scope_only :
    ∀ (r : Resolver) (name : Token) (value : Expression),
      ((r.symbols_table.lookup_variable_in_scope_only name.value
          r.current_scope_id).isSome = true →
        (r.visit_variable_declaration name value).diagnostics
          = ((r.report (Diagnostic.variable_redefinition name)).visitExpression
              value).diagnostics
        ∧ Diagnostic.variable_redefinition name
            ∈ (r.visit_variable_declaration name value).diagnostics)
      ∧ (r.symbols_table.lookup_variable_in_scope_only name.value
          r.current_scope_id = none →
        ∀ d ∈ (r.visit_variable_declaration name value).diagnostics,
          d ∈ r.diagnostics ∨ d.isVariableRedefinition = false) := by
  intro r name value
  constructor
  · intro h
    have hdiag : (r.visit_variable_declaration name value).diagnostics
        = ((r.report (Diagnostic.variable_redefinition name)).visitExpression
            value).diagnostics := by
      simp only [Resolver.visit_variable_declaration, h, if_true]
    refine ⟨hdiag, ?_⟩
    rw [hdiag]
    obtain ⟨l, e, f⟩ := visitExpression_diags_no_redefinition
      (r.report (Diagnostic.variable_redefinition name)) value
    rw [e]
    simp [Resolver.report]
  · intro h d hd
    have hdiag : (r.visit_variable_declaration name value).diagnostics
        = (r.visitExpression value).diagnostics := by
      simp only [Resolver.visit_variable_declaration, h]
      simp
    rw [hdiag] at hd
    obtain ⟨l, e, f⟩ := visitExpression_diags_no_redefinition r value
    rw [e] at hd
    rcases List.mem_append.mp hd with hd | hd
    · exact Or.inl hd
    · exact Or.inr (f d hd)

/-- Witness for C6: `x` declared again in the scope that already binds it
is flagged; declared in a child scope while bound only in the enclosing
global scope (shadowing), it is not. -/
theorem c6_redefinition_same_scope_only_witness :
    ((resolverInScopeX.symbols_table.lookup_variable_in_scope_only
        (identToken "x").value resolverInScopeX.current_scope_id).isSome = true)
    ∧ Diagnostic.variable_redefinition (identToken "x")
        ∈ (resolverInScopeX.visit_variable_declaration (identToken "x")
            (numLit 0)).diagnostics
    ∧ (resolverShadowX.symbols_table.lookup_variable_in_scope_only
        (identToken "x").value resolverShadowX.current_scope_id = none)
    ∧ ((resolverShadowX.symbols_table.lookup_variable (identToken "x").value
        resolverShadowX.current_scope_id).isSome = true)
    ∧ ∀ d ∈ (resolverShadowX.visit_variable_declaration (identToken "x")
          (numLit 0)).diagnostics,
        d ∈ resolverShadowX.diagnostics ∨ d.isVariableRedefinition = false := by
  refine ⟨rfl, ?_, rfl, rfl, ?_⟩
  · exact ((c6_redefinition_same_scope_only resolverInScopeX (identToken "x")
      (numLit 0)).1 rfl).2
  · exact (c6_redefinition_same_scope_only resolverShadowX (identToken "x")
      (numLit 0)).2 rfl

end NavaCode

namespace NavaCode

/-- `opTokenKind` inverts `tryFromKind`. -/
theorem tryFromKind_opTokenKind (op : BinaryOperator) :
    BinaryOperator.tryFromKind (opTokenKind op) = some op := by
  cases op <;> rfl

/-- Operator tokens are never opening parentheses. -/
theorem opTokenKind_ne_leftParen (op : BinaryOperator) :
    opTokenKind op ≠ .leftParen := by
  cases op <;> decide

/-- Parsing one identifier operand: with the next token neither `(`, nor a
binary operator of precedence ≥ the minimum, precedence climbing returns
just the variable reference and stops in front of that token. -/
theorem parse_operand_step :
    ∀ (fuel : Nat) (x t0 : Token) (ts : List Token) (st : ParserState) (p : Nat),
      x.kind = .identifier →
      st.tokens = x :: t0 :: ts →
      t0.kind ≠ .leftParen →
      (BinaryOperator.tryFromKind t0.kind = none
        ∨ ∃ o, BinaryOperator.tryFromKind t0.kind = some o ∧ o.precedence < p) →
      parse_expression_with_precedence (fuel + 4) p st
        = (.ok (.variableRef x),
           { st with tokens := t0 :: ts
                     consumed_tokens := st.consumed_tokens ++ [x.kind] }) := by
  intro fuel x t0 ts st p hx hst ht0 hdisj
  simp only [parse_expression_with_precedence, parse_unary_expression,
    parse_primary_expression, parse_literal_expression, hst, hx,
    UnaryOperator.tryFromKind, ParserState.advance]
  rw [if_neg (by decide : ¬ (TokenKind.identifier = TokenKind.leftParen))]
  rw [if_pos ht0]
  dsimp only
  simp only [parse_binary_loop]
  rcases hdisj with hnone | ⟨o, ho, hp⟩
  · simp only [hnone]
  · simp only [ho]
    rw [if_pos hp]

end NavaCode

namespace NavaCode

/-- Unfolding `chainTokens` one link. -/
theorem chainTokens_cons (o : BinaryOperator) (x : Token)
    (rest : List (BinaryOperator × Token)) :
    chainTokens ((o, x) :: rest) = opToken o :: x :: chainTokens rest := rfl

/-- Unfolding `chainFold` one link. -/
theorem chainFold_cons (left : Expression) (o : BinaryOperator) (x : Token)
    (rest : List (BinaryOperator × Token)) :
    chainFold left ((o, x) :: rest)
      = chainFold (.binaryOperation left o (.variableRef x)) rest := rfl

/-- Every chain of equal-precedence binary operators parses
left-associatively: with each operator of the chain of precedence `p ≥`
the loop minimum and identifier atoms, the precedence-climbing loop folds
the whole chain into a left-nested tree and stops at the end-of-file
sentinel. -/
theorem parse_binary_loop_chain :
    ∀ (ops : List (BinaryOperator × Token)) (p minPrec : Nat)
      (left : Expression) (st : ParserState) (fuel : Nat),
      (∀ q ∈ ops, (q.1).precedence = p ∧ (q.2).kind = .identifier) →
      minPrec ≤ p →
      st.tokens = chainTokens ops ++ [eofToken] →
      2 * ops.length + 8 ≤ fuel →
      (parse_binary_loop fuel minPrec left st).1 = .ok (chainFold left ops)
      ∧ (parse_binary_loop fuel minPrec left st).2.tokens = [eofToken] := by
  intro ops
  induction ops with
  | nil =>
      intro p minPrec left st fuel _ _ hst hfuel
      obtain ⟨g, rfl⟩ : ∃ g, fuel = g + 1 := ⟨fuel - 1, by omega⟩
      have hst2 : st.tokens = [eofToken] := by simpa [chainTokens] using hst
      simp only [parse_binary_loop, hst2]
      exact ⟨rfl, hst2⟩
  | cons q rest ih =>
      obtain ⟨o, x⟩ := q
      intro p minPrec left st fuel hops hmin hst hfuel
      have hop : o.precedence = p := (hops (o, x) (List.mem_cons_self _ _)).1
      have hx : x.kind = .identifier := (hops (o, x) (List.mem_cons_self _ _)).2
      obtain ⟨g, rfl⟩ : ∃ g, fuel = g + 1 := ⟨fuel - 1, by omega⟩
      rw [chainTokens_cons] at hst
      have hne : ¬ (o.precedence < minPrec) := by omega
      simp only [parse_binary_loop, hst, List.cons_append, opToken, mkToken,
        tryFromKind_opTokenKind]
      rw [if_neg hne]
      -- the right operand is a single identifier atom
      have hstop : ∃ t0 ts2, chainTokens rest ++ [eofToken] = t0 :: ts2
          ∧ t0.kind ≠ .leftParen
          ∧ (BinaryOperator.tryFromKind t0.kind = none
             ∨ ∃ o2, BinaryOperator.tryFromKind t0.kind = some o2
                 ∧ o2.precedence < o.precedence + 1) := by
        cases rest with
        | nil => exact ⟨eofToken, [], rfl, by decide, Or.inl rfl⟩
        | cons q2 rest2 =>
            obtain ⟨o2, x2⟩ := q2
            refine ⟨opToken o2, x2 :: chainTokens rest2 ++ [eofToken],
              by simp [chainTokens_cons], ?_, ?_⟩
            · simpa [opToken, mkToken] using opTokenKind_ne_leftParen o2
            · refine Or.inr ⟨o2, ?_, ?_⟩
              · simpa [opToken, mkToken] using tryFromKind_opTokenKind o2
              · have : o2.precedence = p :=
                  (hops (o2, x2) (by simp)).1
                omega
      obtain ⟨t0, ts2, heq, ht0paren, ht0op⟩ := hstop
      obtain ⟨g4, rfl⟩ : ∃ g4, g = g4 + 4 := ⟨g - 4, by omega⟩
      rw [parse_operand_step g4 x t0 ts2 _ (o.precedence + 1) hx
        (by simp [heq]) ht0paren ht0op]
      dsimp only
      rw [chainFold_cons]
      have hrest : ∀ q ∈ rest, (q.1).precedence = p ∧ (q.2).kind = .identifier :=
        fun q hq => hops q (List.mem_cons_of_mem _ hq)
      exact ih p minPrec (.binaryOperation left o (.variableRef x)) _ (g4 + 4)
        hrest hmin (by simp [heq]) (by simp at hfuel ⊢; omega)

end NavaCode

namespace NavaCode

/-- Parsing a single identifier atom through the unary-prefix step. -/
theorem parse_unary_ident :
    ∀ (fuel : Nat) (x t0 : Token) (ts : List Token) (st : ParserState),
      x.kind = .identifier →
      st.tokens = x :: t0 :: ts →
      t0.kind ≠ .leftParen →
      parse_unary_expression (fuel + 3) st
        = (.ok (.variableRef x),
           { st with tokens := t0 :: ts
                     consumed_tokens := st.consumed_tokens ++ [x.kind] }) := by
  intro fuel x t0 ts st hx hst ht0
  simp only [parse_unary_expression, parse_primary_expression,
    parse_literal_expression, hst, hx, UnaryOperator.tryFromKind,
    ParserState.advance]
  rw [if_neg (by decide : ¬ (TokenKind.identifier = TokenKind.leftParen))]
  rw [if_pos ht0]

/-- C3: `a + b * c` parses with the multiplication as the right child of
the addition, `(a + b) * c` parses with the grouped addition as the left
child of the multiplication (for arbitrary identifier texts and spans),
and every chain of equal-precedence binary operators over identifier atoms
parses into a left-associative fold (the loop recurses with
`precedence + 1` for the right operand). -/
theorem c3_precedence_climbing :
    (∀ (a b c pv sv : String) (s1 s2 s3 s4 s5 : TextSpan),
      (parse_expression 30 (ParserState.new
          [⟨.identifier, a, s1⟩, ⟨.plus, pv, s2⟩, ⟨.identifier, b, s3⟩,
           ⟨.star, sv, s4⟩, ⟨.identifier, c, s5⟩, eofToken])).1
        = .ok (.binaryOperation (.variableRef ⟨.identifier, a, s1⟩) .add
            (.binaryOperation (.variableRef ⟨.identifier, b, s3⟩) .multiply
              (.variableRef ⟨.identifier, c, s5⟩))))
    ∧ (∀ (a b c lv rv pv sv : String) (s1 s2 s3 s4 s5 s6 s7 : TextSpan),
      (parse_expression 30 (ParserState.new
          [⟨.leftParen, lv, s1⟩, ⟨.identifier, a, s2⟩, ⟨.plus, pv, s3⟩,
           ⟨.identifier, b, s4⟩, ⟨.rightParen, rv, s5⟩, ⟨.star, sv, s6⟩,
           ⟨.identifier, c, s7⟩, eofToken])).1
        = .ok (.binaryOperation
            (.grouped (.binaryOperation (.variableRef ⟨.identifier, a, s2⟩) .add
              (.variableRef ⟨.identifier, b, s4⟩))) .multiply
            (.variableRef ⟨.identifier, c, s7⟩)))
    ∧ (∀ (x0 : Token) (ops : List (BinaryOperator × Token)) (p fuel : Nat),
        x0.kind = .identifier →
        (∀ q ∈ ops, (q.1).precedence = p ∧ (q.2).kind = .identifier) →
        2 * ops.length + 12 ≤ fuel →
        (parse_expression fuel (ParserState.new
            (x0 :: chainTokens ops ++ [eofToken]))).1
          = .ok (chainFold (.variableRef x0) ops)) := by
  refine ⟨fun a b c pv sv s1 s2 s3 s4 s5 => rfl,
          fun a b c lv rv pv sv s1 s2 s3 s4 s5 s6 s7 => rfl, ?_⟩
  intro x0 ops p fuel hx0 hops hfuel
  obtain ⟨g, rfl⟩ : ∃ g, fuel = g + 5 := ⟨fuel - 5, by omega⟩
  have hstop : ∃ t0 ts2, chainTokens ops ++ [eofToken] = t0 :: ts2
      ∧ t0.kind ≠ .leftParen := by
    cases ops with
    | nil => exact ⟨eofToken, [], rfl, by decide⟩
    | cons q2 rest2 =>
        obtain ⟨o2, x2⟩ := q2
        exact ⟨opToken o2, x2 :: chainTokens rest2 ++ [eofToken],
          by simp [chainTokens_cons],
          by simpa [opToken, mkToken] using opTokenKind_ne_leftParen o2⟩
  obtain ⟨t0, ts2, heq, ht0⟩ := hstop
  have hst : (ParserState.new (x0 :: chainTokens ops ++ [eofToken])).tokens
      = x0 :: t0 :: ts2 := by simp [ParserState.new, heq]
  simp only [parse_expression, parse_expression_with_precedence]
  rw [parse_unary_ident g x0 t0 ts2 _ hx0 hst ht0]
  dsimp only
  exact (parse_binary_loop_chain ops p 0 (.variableRef x0) _ (g + 3)
    hops (Nat.zero_le p) (by simp [heq]) (by simp at hfuel ⊢; omega)).1

/-- Witness for C3 at the chain `a - b - c`. -/
theorem c3_precedence_climbing_witness :
    ((identToken "a").kind = TokenKind.identifier)
    ∧ (∀ q ∈ [((BinaryOperator.subtract : BinaryOperator), identToken "b"),
              (.subtract, identToken "c")],
        (q.1).precedence = 3 ∧ (q.2).kind = TokenKind.identifier)
    ∧ (parse_expression 30 (ParserState.new
        (identToken "a" :: chainTokens
          [(.subtract, identToken "b"), (.subtract, identToken "c")]
          ++ [eofToken]))).1
      = .ok (chainFold (.variableRef (identToken "a"))
          [(.subtract, identToken "b"), (.subtract, identToken "c")]) :=
  ⟨rfl, by decide,
   c3_precedence_climbing.2.2 (identToken "a")
     [(.subtract, identToken "b"), (.subtract, identToken "c")] 3 30
     rfl (by decide) (by decide)⟩

end NavaCode

namespace NavaCode

/-- Transport `rbal` along a result equation. -/
theorem rbal_snd_eq {α : Type} {res : Except ParseError α} {st' : ParserState}
    {p : Except ParseError α × ParserState} (h : p = (res, st')) :
    rbal st' = rbal p.2 := by rw [h]

/-- Pushing a recovery marker preserves the balance measure. -/
theorem rbal_push (st : ParserState) (r : ErrorRecoveryState) :
    rbal (st.push_recovery_state r) = rbal st := by
  simp [rbal, ParserState.push_recovery_state]
  omega

/-- Popping (possibly from an empty stack) preserves the balance measure. -/
theorem rbal_pop (st : ParserState) :
    rbal (st.pop_recovery_state).2 = rbal st := by
  unfold ParserState.pop_recovery_state
  cases hrs : st.recovery_states with
  | nil => rfl
  | cons r rest => simp [rbal, hrs]; omega

/-- `advance` does not touch the recovery stack or the ghost counters. -/
theorem rbal_advance {st : ParserState} {t : Token} {st' : ParserState}
    (h : st.advance = .ok (t, st')) : rbal st' = rbal st := by
  unfold ParserState.advance at h
  cases hts : st.tokens with
  | nil => rw [hts] at h; exact absurd h (by simp)
  | cons a rest =>
      rw [hts] at h
      dsimp only at h
      simp at h
      rw [← h.2]; simp [rbal]

/-- `expect` does not touch the recovery stack or the ghost counters. -/
theorem rbal_expect {e : List TokenKind} {st : ParserState}
    {res : Except ParseError Token} {st' : ParserState}
    (h : Parser.expect e st = (res, st')) : rbal st' = rbal st := by
  unfold Parser.expect at h
  cases hts : st.tokens with
  | nil => rw [hts] at h; dsimp only at h; simp at h; rw [← h.2]
  | cons a rest =>
      rw [hts] at h
      dsimp only at h
      by_cases hmem : a.kind ∈ e
      · rw [if_pos hmem] at h; simp at h; rw [← h.2]; simp [rbal]
      · rw [if_neg hmem] at h; simp at h; rw [← h.2]

/-- `recover` does not touch the recovery stack or the ghost counters. -/
theorem rbal_recover {st : ParserState} {res : Except ParseError Unit}
    {st' : ParserState} (h : Parser.recover st = (res, st')) :
    rbal st' = rbal st := by
  unfold Parser.recover at h
  cases hra : recoverAux st.tokens st.consumed_tokens with
  | mk r p =>
      rw [hra] at h
      obtain ⟨toks, consumed⟩ := p
      simp at h
      rw [← h.2]
      simp [rbal]

end NavaCode

namespace NavaCode

/-- The recovery-balance measure is preserved by every expression-level
parsing function (none of them touches the recovery stack or the ghost
counters). -/
theorem rbal_expression_family : ∀ fuel : Nat,
    (∀ st, rbal (parse_expression fuel st).2 = rbal st)
    ∧ (∀ mp st, rbal (parse_expression_with_precedence fuel mp st).2 = rbal st)
    ∧ (∀ mp left st, rbal (parse_binary_loop fuel mp left st).2 = rbal st)
    ∧ (∀ st, rbal (parse_unary_expression fuel st).2 = rbal st)
    ∧ (∀ st, rbal (parse_primary_expression fuel st).2 = rbal st)
    ∧ (∀ st, rbal (parse_grouped_expression fuel st).2 = rbal st)
    ∧ (∀ st, rbal (parse_literal_expression fuel st).2 = rbal st)
    ∧ (∀ st, rbal (parse_function_call_arguments fuel st).2 = rbal st)
    ∧ (∀ st, rbal (parse_function_call_arguments_list fuel st).2 = rbal st)
    ∧ (∀ acc st, rbal (parse_call_arguments_loop fuel acc st).2 = rbal st) := by
  intro fuel
  induction fuel with
  | zero =>
      exact ⟨fun _ => rfl, fun _ _ => rfl, fun _ _ _ => rfl, fun _ => rfl,
        fun _ => rfl, fun _ => rfl, fun _ => rfl, fun _ => rfl, fun _ => rfl,
        fun _ _ => rfl⟩
  | succ f ih =>
      obtain ⟨ihE, ihEWP, ihBL, ihU, ihPR, ihGR, ihLIT, ihFCA, ihFCAL, ihCAL⟩ := ih
      have CE : ∀ {res st'} (st), parse_expression f st = (res, st') →
          rbal st' = rbal st := fun st h => (rbal_snd_eq h).trans (ihE st)
      have CEWP : ∀ {res st'} (mp st), parse_expression_with_precedence f mp st
          = (res, st') → rbal st' = rbal st :=
        fun mp st h => (rbal_snd_eq h).trans (ihEWP mp st)
      have CBL : ∀ {res st'} (mp left st), parse_binary_loop f mp left st
          = (res, st') → rbal st' = rbal st :=
        fun mp left st h => (rbal_snd_eq h).trans (ihBL mp left st)
      have CU : ∀ {res st'} (st), parse_unary_expression f st = (res, st') →
          rbal st' = rbal st := fun st h => (rbal_snd_eq h).trans (ihU st)
      have CFCA : ∀ {res st'} (st), parse_function_call_arguments f st
          = (res, st') → rbal st' = rbal st :=
        fun st h => (rbal_snd_eq h).trans (ihFCA st)
      have CFCAL : ∀ {res st'} (st), parse_function_call_arguments_list f st
          = (res, st') → rbal st' = rbal st :=
        fun st h => (rbal_snd_eq h).trans (ihFCAL st)
      have CCAL : ∀ {res st'} (acc st), parse_call_arguments_loop f acc st
          = (res, st') → rbal st' = rbal st :=
        fun acc st h => (rbal_snd_eq h).trans (ihCAL acc st)
      refine ⟨?_, ?_, ?_, ?_, ?_, ?_, ?_, ?_, ?_, ?_⟩
      -- parse_expression
      · intro st
        simp only [parse_expression]
        exact ihEWP 0 st
      -- parse_expression_with_precedence
      · intro mp st
        simp only [parse_expression_with_precedence]
        cases h1 : parse_unary_expression f st with
        | mk res1 st1 =>
          cases res1 with
          | error e => exact CU st h1
          | ok left =>
              dsimp only
              exact (ihBL mp left st1).trans (CU st h1)
      -- parse_binary_loop
      · intro mp left st
        simp only [parse_binary_loop]
        cases hts : st.tokens with
        | nil => rfl
        | cons t rest =>
          dsimp only
          cases BinaryOperator.tryFromKind t.kind with
          | none => rfl
          | some op =>
            dsimp only
            by_cases hp : op.precedence < mp
            · rw [if_pos hp]
            · rw [if_neg hp]
              cases h2 : parse_expression_with_precedence f (op.precedence + 1)
                  { st with tokens := rest
                            consumed_tokens := st.consumed_tokens ++ [t.kind] } with
              | mk res2 st2 =>
                cases res2 with
                | error e =>
                    dsimp only
                    exact (CEWP _ _ h2).trans (by simp [rbal])
                | ok right =>
                    dsimp only
                    exact (ihBL mp _ st2).trans
                      ((CEWP _ _ h2).trans (by simp [rbal]))
      -- parse_unary_expression
      · intro st
        simp only [parse_unary_expression]
        cases hts : st.tokens with
        | nil => rfl
        | cons t rest =>
          dsimp only
          cases UnaryOperator.tryFromKind t.kind with
          | some op =>
            dsimp only
            cases h1 : parse_unary_expression f
                { st with tokens := rest
                          consumed_tokens := st.consumed_tokens ++ [t.kind] } with
            | mk res1 st1 =>
              cases res1 with
              | error e => exact (CU _ h1).trans (by simp [rbal])
              | ok operand =>
                  dsimp only
                  exact (CU _ h1).trans (by simp [rbal])
          | none =>
              dsimp only
              exact ihPR st
      -- parse_primary_expression
      · intro st
        simp only [parse_primary_expression]
        cases hts : st.tokens with
        | nil => rfl
        | cons t rest =>
          dsimp only
          by_cases hk : t.kind = .leftParen
          · rw [if_pos hk]; exact ihGR st
          · rw [if_neg hk]; exact ihLIT st
      -- parse_grouped_expression
      · intro st
        simp only [parse_grouped_expression]
        cases h1 : Parser.expect [.leftParen] st with
        | mk res1 st1 =>
          cases res1 with
          | error e => exact rbal_expect h1
          | ok tk =>
            dsimp only
            cases h2 : parse_expression f st1 with
            | mk res2 st2 =>
              cases res2 with
              | error e => exact (CE st1 h2).trans (rbal_expect h1)
              | ok inner =>
                dsimp only
                cases h3 : Parser.expect [.rightParen] st2 with
                | mk res3 st3 =>
                  cases res3 with
                  | error e =>
                      exact (rbal_expect h3).trans
                        ((CE st1 h2).trans (rbal_expect h1))
                  | ok tk2 =>
                      exact (rbal_expect h3).trans
                        ((CE st1 h2).trans (rbal_expect h1))
      -- parse_literal_expression
      · intro st
        simp only [parse_literal_expression]
        cases hts : st.tokens with
        | nil => rfl
        | cons t rest =>
          dsimp only
          split
          · -- number literal
            simp only [ParserState.advance, hts]
            cases parseNumberValue t.value <;> simp [rbal]
          · -- true literal
            simp only [ParserState.advance, hts]
            try dsimp only
            simp [rbal]
          · -- false literal
            simp only [ParserState.advance, hts]
            try dsimp only
            simp [rbal]
          · -- identifier
            simp only [ParserState.advance, hts]
            try dsimp only
            cases hrest : rest with
            | nil => simp [rbal]
            | cons t2 rest2 =>
              dsimp only
              by_cases hk2 : t2.kind ≠ .leftParen
              · rw [if_pos hk2]; simp [rbal]
              · rw [if_neg hk2]
                cases h2 : parse_function_call_arguments f
                    { st with tokens := t2 :: rest2
                              consumed_tokens := st.consumed_tokens ++ [t.kind] } with
                | mk res2 st2 =>
                  cases res2 with
                  | error e => exact (CFCA _ h2).trans (by simp [rbal])
                  | ok arguments => exact (CFCA _ h2).trans (by simp [rbal])
          · -- unexpected token
            rfl
      -- parse_function_call_arguments
      · intro st
        simp only [parse_function_call_arguments]
        cases h1 : Parser.expect [.leftParen] st with
        | mk res1 st1 =>
          cases res1 with
          | error e => exact rbal_expect h1
          | ok tk =>
            dsimp only
            cases hts1 : st1.tokens with
            | nil => exact rbal_expect h1
            | cons t2 rest2 =>
              dsimp only
              have hinner : ∀ (p : Except ParseError (List Expression) × ParserState),
                  (if t2.kind = .rightParen then
                    ((.ok [], st1) : Except ParseError (List Expression) × ParserState)
                  else parse_function_call_arguments_list f st1) = p →
                  rbal p.2 = rbal st1 := by
                intro p hp
                by_cases hk : t2.kind = .rightParen
                · rw [if_pos hk] at hp; rw [← hp]
                · rw [if_neg hk] at hp
                  exact (rbal_snd_eq hp.symm ▸ (ihFCAL st1) : _)
              cases hsel : (if t2.kind = .rightParen then
                  ((.ok [], st1) : Except ParseError (List Expression) × ParserState)
                else parse_function_call_arguments_list f st1) with
              | mk res2 st2 =>
                cases res2 with
                | error e =>
                    dsimp only
                    have := hinner (Except.error e, st2) hsel
                    exact this.trans (rbal_expect h1)
                | ok arguments =>
                    dsimp only
                    have hmid := hinner (Except.ok arguments, st2) hsel
                    cases h3 : Parser.expect [.rightParen] st2 with
                    | mk res3 st3 =>
                      cases res3 with
                      | error e =>
                          exact (rbal_expect h3).trans
                            (hmid.trans (rbal_expect h1))
                      | ok tk2 =>
                          exact (rbal_expect h3).trans
                            (hmid.trans (rbal_expect h1))
      -- parse_function_call_arguments_list
      · intro st
        simp only [parse_function_call_arguments_list]
        cases h1 : parse_expression f st with
        | mk res1 st1 =>
          cases res1 with
          | error e => exact CE st h1
          | ok first =>
              dsimp only
              exact (ihCAL [first] st1).trans (CE st h1)
      -- parse_call_arguments_loop
      · intro acc st
        simp only [parse_call_arguments_loop]
        cases hts : st.tokens with
        | nil => rfl
        | cons t rest =>
          dsimp only
          by_cases hk : t.kind = .comma
          · rw [if_pos hk]
            simp only [ParserState.advance, hts]
            try dsimp only
            cases h2 : parse_expression f
                { st with tokens := rest
                          consumed_tokens := st.consumed_tokens ++ [t.kind] } with
            | mk res2 st2 =>
              cases res2 with
              | error e => exact (CE _ h2).trans (by simp [rbal])
              | ok arg =>
                  dsimp only
                  exact (ihCAL _ st2).trans ((CE _ h2).trans (by simp [rbal]))
          · rw [if_neg hk]

end NavaCode

namespace NavaCode

/-- Conditional form of `rbal_expression_family` for `parse_expression`. -/
theorem rbal_parse_expression {fuel : Nat} {st : ParserState}
    {res : Except ParseError Expression} {st' : ParserState}
    (h : parse_expression fuel st = (res, st')) : rbal st' = rbal st :=
  (rbal_snd_eq h).trans ((rbal_expression_family fuel).1 st)

/-- Conditional form of `rbal_expression_family` for
`parse_grouped_expression`. -/
theorem rbal_parse_grouped {fuel : Nat} {st : ParserState}
    {res : Except ParseError Expression} {st' : ParserState}
    (h : parse_grouped_expression fuel st = (res, st')) : rbal st' = rbal st :=
  (rbal_snd_eq h).trans ((rbal_expression_family fuel).2.2.2.2.2.1 st)

/-- Conditional form of `rbal_expression_family` for
`parse_function_call_arguments`. -/
theorem rbal_parse_fc_arguments {fuel : Nat} {st : ParserState}
    {res : Except ParseError (List Expression)} {st' : ParserState}
    (h : parse_function_call_arguments fuel st = (res, st')) :
    rbal st' = rbal st :=
  (rbal_snd_eq h).trans ((rbal_expression_family fuel).2.2.2.2.2.2.2.1 st)

/-- The recovery-balance measure is preserved by every statement-level
parsing function: every pop matches an earlier push. -/
theorem rbal_statement_family : ∀ fuel : Nat,
    (∀ st, rbal (parse_statement fuel st).2 = rbal st)
    ∧ (∀ stop acc st, rbal (parse_statements_until_loop fuel stop acc st).2 = rbal st)
    ∧ (∀ stop st, rbal (parse_statements_until fuel stop st).2 = rbal st)
    ∧ (∀ tgt sep acc st, rbal (parse_tokens_list_loop fuel tgt sep acc st).2 = rbal st)
    ∧ (∀ tgt sep st, rbal (parse_tokens_list fuel tgt sep st).2 = rbal st)
    ∧ (∀ st, rbal (parse_variable_declaration fuel st).2 = rbal st)
    ∧ (∀ st, rbal (parse_variable_assignement fuel st).2 = rbal st)
    ∧ (∀ st, rbal (parse_if_statement fuel st).2 = rbal st)
    ∧ (∀ st, rbal (parse_if_then_branch fuel st).2 = rbal st)
    ∧ (∀ st, rbal (parse_else_branch fuel st).2 = rbal st)
    ∧ (∀ st, rbal (parse_while_statement fuel st).2 = rbal st)
    ∧ (∀ st, rbal (parse_for_statement fuel st).2 = rbal st)
    ∧ (∀ st, rbal (parse_function_definition fuel st).2 = rbal st)
    ∧ (∀ st, rbal (parse_function_call fuel st).2 = rbal st)
    ∧ (∀ st, rbal (parse_return_statement fuel st).2 = rbal st) := by
  intro fuel
  induction fuel with
  | zero =>
      exact ⟨fun _ => rfl, fun _ _ _ => rfl, fun _ _ => rfl, fun _ _ _ _ => rfl,
        fun _ _ _ => rfl, fun _ => rfl, fun _ => rfl, fun _ => rfl, fun _ => rfl,
        fun _ => rfl, fun _ => rfl, fun _ => rfl, fun _ => rfl, fun _ => rfl,
        fun _ => rfl⟩
  | succ f ih =>
      obtain ⟨ihST, ihSUL, ihSU, ihTLL, ihTL, ihVD, ihVA, ihIF, ihITB, ihEB,
        ihWH, ihFOR, ihFD, ihFC, ihRS⟩ := ih
      have CST : ∀ {res st'} (st), parse_statement f st = (res, st') →
          rbal st' = rbal st := fun st h => (rbal_snd_eq h).trans (ihST st)
      have CSUL : ∀ {res st'} (stop acc st),
          parse_statements_until_loop f stop acc st = (res, st') →
          rbal st' = rbal st :=
        fun stop acc st h => (rbal_snd_eq h).trans (ihSUL stop acc st)
      have CSU : ∀ {res st'} (stop st), parse_statements_until f stop st
          = (res, st') → rbal st' = rbal st :=
        fun stop st h => (rbal_snd_eq h).trans (ihSU stop st)
      have CTLL : ∀ {res st'} (tgt sep acc st),
          parse_tokens_list_loop f tgt sep acc st = (res, st') →
          rbal st' = rbal st :=
        fun tgt sep acc st h => (rbal_snd_eq h).trans (ihTLL tgt sep acc st)
      have CTL : ∀ {res st'} (tgt sep st), parse_tokens_list f tgt sep st
          = (res, st') → rbal st' = rbal st :=
        fun tgt sep st h => (rbal_snd_eq h).trans (ihTL tgt sep st)
      have CVD : ∀ {res st'} (st), parse_variable_declaration f st = (res, st') →
          rbal st' = rbal st := fun st h => (rbal_snd_eq h).trans (ihVD st)
      have CVA : ∀ {res st'} (st), parse_variable_assignement f st = (res, st') →
          rbal st' = rbal st := fun st h => (rbal_snd_eq h).trans (ihVA st)
      have CIF : ∀ {res st'} (st), parse_if_statement f st = (res, st') →
          rbal st' = rbal st := fun st h => (rbal_snd_eq h).trans (ihIF st)
      have CITB : ∀ {res st'} (st), parse_if_then_branch f st = (res, st') →
          rbal st' = rbal st := fun st h => (rbal_snd_eq h).trans (ihITB st)
      have CEB : ∀ {res st'} (st), parse_else_branch f st = (res, st') →
          rbal st' = rbal st := fun st h => (rbal_snd_eq h).trans (ihEB st)
      have CWH : ∀ {res st'} (st), parse_while_statement f st = (res, st') →
          rbal st' = rbal st := fun st h => (rbal_snd_eq h).trans (ihWH st)
      have CFOR : ∀ {res st'} (st), parse_for_statement f st = (res, st') →
          rbal st' = rbal st := fun st h => (rbal_snd_eq h).trans (ihFOR st)
      have CFD : ∀ {res st'} (st), parse_function_definition f st = (res, st') →
          rbal st' = rbal st := fun st h => (rbal_snd_eq h).trans (ihFD st)
      have CFC : ∀ {res st'} (st), parse_function_call f st = (res, st') →
          rbal st' = rbal st := fun st h => (rbal_snd_eq h).trans (ihFC st)
      have CRS : ∀ {res st'} (st), parse_return_statement f st = (res, st') →
          rbal st' = rbal st := fun st h => (rbal_snd_eq h).trans (ihRS st)
      refine ⟨?_, ?_, ?_, ?_, ?_, ?_, ?_, ?_, ?_, ?_, ?_, ?_, ?_, ?_, ?_⟩
      -- parse_statement
      · intro st
        simp only [parse_statement]
        cases hts : st.tokens with
        | nil => rfl
        | cons t rest =>
          dsimp only
          by_cases heof : t.kind = .endOfFile
          · rw [if_pos heof]
          · rw [if_neg heof]
            split
            · -- let
              cases h1 : parse_variable_declaration f st with
              | mk res1 st1 => cases res1 <;> exact CVD st h1
            · -- set
              cases h1 : parse_variable_assignement f st with
              | mk res1 st1 => cases res1 <;> exact CVA st h1
            · -- if
              cases h1 : parse_if_statement f st with
              | mk res1 st1 =>
                cases res1 with
                | ok s => exact CIF st h1
                | error e => exact (rbal_push st1 _).trans (CIF st h1)
            · -- while
              cases h1 : parse_while_statement f st with
              | mk res1 st1 =>
                cases res1 with
                | ok s => exact CWH st h1
                | error e => exact (rbal_push st1 _).trans (CWH st h1)
            · -- for
              cases h1 : parse_for_statement f st with
              | mk res1 st1 =>
                cases res1 with
                | ok s => exact CFOR st h1
                | error e => exact (rbal_push st1 _).trans (CFOR st h1)
            · -- define
              cases h1 : parse_function_definition f st with
              | mk res1 st1 =>
                cases res1 with
                | ok s => exact CFD st h1
                | error e => exact (rbal_push st1 _).trans (CFD st h1)
            · -- identifier
              cases h1 : parse_function_call f st with
              | mk res1 st1 =>
                cases res1 with
                | ok p =>
                    obtain ⟨name, args⟩ := p
                    exact CFC st h1
                | error e => exact CFC st h1
            · -- return
              cases h1 : parse_return_statement f st with
              | mk res1 st1 => cases res1 <;> exact CRS st h1
            · -- else
              by_cases hc1 : st.current_recovery_state
                  = some (.recoverFromBadBlock .ifBlock)
              · rw [if_pos hc1]
                simp only [ParserState.advance, hts]
                try dsimp only
                exact (ihST _).trans (by simp [rbal])
              · rw [if_neg hc1]
                by_cases hc2 : st.consumed_tokens.getLast? = some TokenKind.endKeyword
                · rw [if_pos hc2]
                  simp only [ParserState.advance, ParserState.push_recovery_state,
                    hts]
                  try dsimp only
                  simp [rbal]
                  omega
                · rw [if_neg hc2]
                  simp only [ParserState.advance, ParserState.push_recovery_state,
                    hts]
                  try dsimp only
                  simp [rbal]
                  omega
            · -- end
              cases hcr : st.current_recovery_state with
              | some r =>
                  cases r with
                  | recoverFromBadBlock bt =>
                    dsimp only
                    unfold ParserState.current_recovery_state at hcr
                    cases hrs : st.recovery_states with
                    | nil => rw [hrs] at hcr; exact absurd hcr (by simp)
                    | cons x tl =>
                      simp only [ParserState.pop_recovery_state, hrs]
                      try dsimp only
                      simp only [ParserState.advance, hts]
                      try dsimp only
                      refine (ihST _).trans ?_
                      simp [rbal, hrs]
                      omega
              | none =>
                  dsimp only
                  simp only [ParserState.advance, hts]
                  try dsimp only
                  simp [rbal]
            · -- unexpected token
              simp only [ParserState.advance, hts]
              try dsimp only
              simp [rbal]
      -- parse_statements_until_loop
      · intro stop acc st
        simp only [parse_statements_until_loop]
        cases hts : st.tokens with
        | nil => rfl
        | cons t rest =>
          dsimp only
          by_cases hmem : t.kind ∈ stop
          · rw [if_pos hmem]
          · rw [if_neg hmem]
            cases h1 : parse_statement f st with
            | mk res1 st1 =>
              cases res1 with
              | error e => exact CST st h1
              | ok v =>
                cases v with
                | none => exact CST st h1
                | some s =>
                    dsimp only
                    exact (ihSUL stop _ st1).trans (CST st h1)
      -- parse_statements_until
      · intro stop st
        simp only [parse_statements_until]
        cases h1 : parse_statements_until_loop f stop [] st with
        | mk res1 st1 => cases res1 <;> exact CSUL stop [] st h1
      -- parse_tokens_list_loop
      · intro tgt sep acc st
        simp only [parse_tokens_list_loop]
        cases sep with
        | none =>
            dsimp only
            cases h1 : Parser.expect [tgt] st with
            | mk res1 st1 =>
              cases res1 with
              | error e => exact rbal_expect h1
              | ok tk =>
                  dsimp only
                  exact (ihTLL tgt none _ st1).trans (rbal_expect h1)
        | some sp =>
            dsimp only
            cases hts : st.tokens with
            | nil => rfl
            | cons t rest =>
              dsimp only
              by_cases hk : t.kind ≠ sp
              · rw [if_pos hk]
              · rw [if_neg hk]
                simp only [ParserState.advance, hts]
                try dsimp only
                cases h2 : Parser.expect [tgt]
                    { st with tokens := rest
                              consumed_tokens := st.consumed_tokens ++ [t.kind] } with
                | mk res2 st2 =>
                  cases res2 with
                  | error e => exact (rbal_expect h2).trans (by simp [rbal])
                  | ok tk =>
                      dsimp only
                      exact (ihTLL tgt (some sp) _ st2).trans
                        ((rbal_expect h2).trans (by simp [rbal]))
      -- parse_tokens_list
      · intro tgt sep st
        simp only [parse_tokens_list]
        cases h1 : Parser.expect [tgt] st with
        | mk res1 st1 =>
          cases res1 with
          | error e => exact rbal_expect h1
          | ok tk =>
              dsimp only
              exact (ihTLL tgt sep [tk] st1).trans (rbal_expect h1)
      -- parse_variable_declaration
      · intro st
        simp only [parse_variable_declaration]
        cases h1 : Parser.expect [.letKeyword] st with
        | mk res1 st1 =>
          cases res1 with
          | error e => exact rbal_expect h1
          | ok _ =>
            dsimp only
            cases h2 : Parser.expect [.identifier] st1 with
            | mk res2 st2 =>
              cases res2 with
              | error e => exact (rbal_expect h2).trans (rbal_expect h1)
              | ok nameToken =>
                dsimp only
                cases h3 : Parser.expect [.beKeyword] st2 with
                | mk res3 st3 =>
                  cases res3 with
                  | error e =>
                      exact (rbal_expect h3).trans
                        ((rbal_expect h2).trans (rbal_expect h1))
                  | ok _ =>
                    dsimp only
                    cases h4 : parse_expression f st3 with
                    | mk res4 st4 =>
                      cases res4 <;>
                        exact (rbal_parse_expression h4).trans
                          ((rbal_expect h3).trans
                            ((rbal_expect h2).trans (rbal_expect h1)))
      -- parse_variable_assignement
      · intro st
        simp only [parse_variable_assignement]
        cases h1 : Parser.expect [.setKeyword] st with
        | mk res1 st1 =>
          cases res1 with
          | error e => exact rbal_expect h1
          | ok _ =>
            dsimp only
            cases h2 : Parser.expect [.identifier] st1 with
            | mk res2 st2 =>
              cases res2 with
              | error e => exact (rbal_expect h2).trans (rbal_expect h1)
              | ok nameToken =>
                dsimp only
                cases h3 : Parser.expect [.toKeyword] st2 with
                | mk res3 st3 =>
                  cases res3 with
                  | error e =>
                      exact (rbal_expect h3).trans
                        ((rbal_expect h2).trans (rbal_expect h1))
                  | ok _ =>
                    dsimp only
                    cases h4 : parse_expression f st3 with
                    | mk res4 st4 =>
                      cases res4 <;>
                        exact (rbal_parse_expression h4).trans
                          ((rbal_expect h3).trans
                            ((rbal_expect h2).trans (rbal_expect h1)))
      -- parse_if_statement
      · intro st
        simp only [parse_if_statement]
        cases h1 : parse_if_then_branch f st with
        | mk res1 st1 =>
          cases res1 with
          | error e => exact CITB st h1
          | ok p =>
            obtain ⟨condition, thenBranch⟩ := p
            dsimp only
            cases hts1 : st1.tokens with
            | nil => exact CITB st h1
            | cons t2 rest2 =>
              dsimp only
              by_cases hk : t2.kind = .elseKeyword
              · rw [if_pos hk]
                cases h2 : parse_else_branch f st1 with
                | mk res2 st2 =>
                  cases res2 <;> exact (CEB st1 h2).trans (CITB st h1)
              · rw [if_neg hk]
                cases h2 : Parser.expect [.endKeyword] st1 with
                | mk res2 st2 =>
                  cases res2 <;> exact (rbal_expect h2).trans (CITB st h1)
      -- parse_if_then_branch
      · intro st
        simp only [parse_if_then_branch]
        cases h1 : Parser.expect [.ifKeyword] st with
        | mk res1 st1 =>
          cases res1 with
          | error e => exact rbal_expect h1
          | ok _ =>
            dsimp only
            cases h2 : parse_expression f st1 with
            | mk res2 st2 =>
              cases res2 with
              | error e =>
                  exact (rbal_parse_expression h2).trans (rbal_expect h1)
              | ok condition =>
                dsimp only
                cases h3 : Parser.expect [.thenKeyword] st2 with
                | mk res3 st3 =>
                  cases res3 with
                  | error e =>
                      exact (rbal_expect h3).trans
                        ((rbal_parse_expression h2).trans (rbal_expect h1))
                  | ok _ =>
                    dsimp only
                    cases h4 : parse_statements_until f
                        [.elseKeyword, .endKeyword] st3 with
                    | mk res4 st4 =>
                      cases res4 <;>
                        exact (CSU _ st3 h4).trans
                          ((rbal_expect h3).trans
                            ((rbal_parse_expression h2).trans (rbal_expect h1)))
      -- parse_else_branch
      · intro st
        simp only [parse_else_branch]
        cases h1 : Parser.expect [.elseKeyword] st with
        | mk res1 st1 =>
          cases res1 with
          | error e => exact rbal_expect h1
          | ok _ =>
            dsimp only
            cases hts1 : st1.tokens with
            | nil => exact rbal_expect h1
            | cons t2 rest2 =>
              dsimp only
              by_cases hk : t2.kind = .ifKeyword
              · rw [if_pos hk]
                cases h2 : parse_if_statement f st1 with
                | mk res2 st2 =>
                  cases res2 <;> exact (CIF st1 h2).trans (rbal_expect h1)
              · rw [if_neg hk]
                cases h2 : parse_statements_until f [.endKeyword] st1 with
                | mk res2 st2 =>
                  cases res2 with
                  | error e => exact (CSU _ st1 h2).trans (rbal_expect h1)
                  | ok elseBranch =>
                    dsimp only
                    cases h3 : Parser.expect [.endKeyword] st2 with
                    | mk res3 st3 =>
                      cases res3 <;>
                        exact (rbal_expect h3).trans
                          ((CSU _ st1 h2).trans (rbal_expect h1))
      -- parse_while_statement
      · intro st
        simp only [parse_while_statement]
        cases h1 : Parser.expect [.whileKeyword] st with
        | mk res1 st1 =>
          cases res1 with
          | error e => exact rbal_expect h1
          | ok _ =>
            dsimp only
            cases h2 : parse_expression f st1 with
            | mk res2 st2 =>
              cases res2 with
              | error e =>
                  exact (rbal_parse_expression h2).trans (rbal_expect h1)
              | ok condition =>
                dsimp only
                cases h3 : Parser.expect [.doKeyword] st2 with
                | mk res3 st3 =>
                  cases res3 with
                  | error e =>
                      exact (rbal_expect h3).trans
                        ((rbal_parse_expression h2).trans (rbal_expect h1))
                  | ok _ =>
                    dsimp only
                    cases h4 : parse_statements_until f [.endKeyword] st3 with
                    | mk res4 st4 =>
                      cases res4 with
                      | error e =>
                          exact (CSU _ st3 h4).trans
                            ((rbal_expect h3).trans
                              ((rbal_parse_expression h2).trans (rbal_expect h1)))
                      | ok body =>
                        dsimp only
                        cases h5 : Parser.expect [.endKeyword] st4 with
                        | mk res5 st5 =>
                          cases res5 <;>
                            exact (rbal_expect h5).trans
                              ((CSU _ st3 h4).trans
                                ((rbal_expect h3).trans
                                  ((rbal_parse_expression h2).trans
                                    (rbal_expect h1))))
      -- parse_for_statement
      · intro st
        simp only [parse_for_statement]
        cases h1 : Parser.expect [.forKeyword] st with
        | mk res1 st1 =>
          cases res1 with
          | error e => exact rbal_expect h1
          | ok _ =>
            dsimp only
            cases h2 : Parser.expect [.identifier] st1 with
            | mk res2 st2 =>
              cases res2 with
              | error e => exact (rbal_expect h2).trans (rbal_expect h1)
              | ok variableToken =>
                dsimp only
                cases h3 : Parser.expect [.fromKeyword] st2 with
                | mk res3 st3 =>
                  cases res3 with
                  | error e =>
                      exact (rbal_expect h3).trans
                        ((rbal_expect h2).trans (rbal_expect h1))
                  | ok _ =>
                    dsimp only
                    have chain3 : rbal st3 = rbal st :=
                      (rbal_expect h3).trans
                        ((rbal_expect h2).trans (rbal_expect h1))
                    cases h4 : parse_expression f st3 with
                    | mk res4 st4 =>
                      cases res4 with
                      | error e =>
                          exact (rbal_parse_expression h4).trans chain3
                      | ok startExpr =>
                        dsimp only
                        cases h5 : Parser.expect [.toKeyword] st4 with
                        | mk res5 st5 =>
                          cases res5 with
                          | error e =>
                              exact (rbal_expect h5).trans
                                ((rbal_parse_expression h4).trans chain3)
                          | ok _ =>
                            dsimp only
                            have chain5 : rbal st5 = rbal st :=
                              (rbal_expect h5).trans
                                ((rbal_parse_expression h4).trans chain3)
                            cases h6 : parse_expression f st5 with
                            | mk res6 st6 =>
                              cases res6 with
                              | error e =>
                                  exact (rbal_parse_expression h6).trans chain5
                              | ok stopExpr =>
                                dsimp only
                                have chain6 : rbal st6 = rbal st :=
                                  (rbal_parse_expression h6).trans chain5
                                cases hts6 : st6.tokens with
                                | nil => exact chain6
                                | cons t7 rest7 =>
                                  dsimp only
                                  have hinner : ∀ (p : Except ParseError
                                      (Option Expression) × ParserState),
                                      (if t7.kind = .stepKeyword then
                                        match st6.advance with
                                        | .error e => (.error e, st6)
                                        | .ok (_, st7) =>
                                            match parse_expression f st7 with
                                            | (.ok se, st8) => (.ok (some se), st8)
                                            | (.error e, st8) => (.error e, st8)
                                      else (.ok none, st6)) = p →
                                      rbal p.2 = rbal st6 := by
                                    intro p hp
                                    by_cases hk : t7.kind = .stepKeyword
                                    · rw [if_pos hk] at hp
                                      cases h7 : st6.advance with
                                      | error e =>
                                          rw [h7] at hp; rw [← hp]
                                      | ok q =>
                                        obtain ⟨tk7, st7⟩ := q
                                        rw [h7] at hp
                                        dsimp only at hp
                                        cases h8 : parse_expression f st7 with
                                        | mk res8 st8 =>
                                          rw [h8] at hp
                                          cases res8 with
                                          | ok se =>
                                              dsimp only at hp
                                              rw [← hp]
                                              exact (rbal_parse_expression h8).trans
                                                (rbal_advance h7)
                                          | error e =>
                                              dsimp only at hp
                                              rw [← hp]
                                              exact (rbal_parse_expression h8).trans
                                                (rbal_advance h7)
                                    · rw [if_neg hk] at hp; rw [← hp]
                                  cases hsel : (if t7.kind = .stepKeyword then
                                      match st6.advance with
                                      | .error e => (.error e, st6)
                                      | .ok (_, st7) =>
                                          match parse_expression f st7 with
                                          | (.ok se, st8) => (.ok (some se), st8)
                                          | (.error e, st8) => (.error e, st8)
                                    else (.ok none, st6) : Except ParseError
                                      (Option Expression) × ParserState) with
                                  | mk res7 st9 =>
                                    have hmid : rbal st9 = rbal st :=
                                      (hinner (res7, st9) hsel).trans chain6
                                    cases res7 with
                                    | error e => exact hmid
                                    | ok stepExpr =>
                                      dsimp only
                                      cases h10 : Parser.expect [.doKeyword] st9 with
                                      | mk res10 st10 =>
                                        cases res10 with
                                        | error e =>
                                            exact (rbal_expect h10).trans hmid
                                        | ok _ =>
                                          dsimp only
                                          cases h11 : parse_statements_until f
                                              [.endKeyword] st10 with
                                          | mk res11 st11 =>
                                            cases res11 with
                                            | error e =>
                                                exact (CSU _ st10 h11).trans
                                                  ((rbal_expect h10).trans hmid)
                                            | ok body =>
                                              dsimp only
                                              cases h12 : Parser.expect
                                                  [.endKeyword] st11 with
                                              | mk res12 st12 =>
                                                cases res12 <;>
                                                  exact (rbal_expect h12).trans
                                                    ((CSU _ st10 h11).trans
                                                      ((rbal_expect h10).trans hmid))
      -- parse_function_definition
      · intro st
        simp only [parse_function_definition]
        cases h1 : Parser.expect [.defineKeyword] st with
        | mk res1 st1 =>
          cases res1 with
          | error e => exact rbal_expect h1
          | ok _ =>
            dsimp only
            cases h2 : Parser.expect [.functionKeyword] st1 with
            | mk res2 st2 =>
              cases res2 with
              | error e => exact (rbal_expect h2).trans (rbal_expect h1)
              | ok _ =>
                dsimp only
                cases h3 : Parser.expect [.identifier] st2 with
                | mk res3 st3 =>
                  cases res3 with
                  | error e =>
                      exact (rbal_expect h3).trans
                        ((rbal_expect h2).trans (rbal_expect h1))
                  | ok functionName =>
                    dsimp only
                    have chain3 : rbal st3 = rbal st :=
                      (rbal_expect h3).trans
                        ((rbal_expect h2).trans (rbal_expect h1))
                    cases hts3 : st3.tokens with
                    | nil => exact chain3
                    | cons t4 rest4 =>
                      dsimp only
                      have hinner : ∀ (p : Except ParseError
                          (List Token) × ParserState),
                          (if t4.kind = .withKeyword then
                            match st3.advance with
                            | .error e => (.error e, st3)
                            | .ok (_, st4) =>
                                parse_tokens_list f .identifier (some .comma) st4
                          else (.ok [], st3)) = p →
                          rbal p.2 = rbal st3 := by
                        intro p hp
                        by_cases hk : t4.kind = .withKeyword
                        · rw [if_pos hk] at hp
                          cases h4 : st3.advance with
                          | error e => rw [h4] at hp; rw [← hp]
                          | ok q =>
                            obtain ⟨tk4, st4⟩ := q
                            rw [h4] at hp
                            dsimp only at hp
                            rw [← hp]
                            exact (CTL _ _ st4 rfl).trans (rbal_advance h4)
                        · rw [if_neg hk] at hp; rw [← hp]
                      cases hsel : (if t4.kind = .withKeyword then
                          match st3.advance with
                          | .error e => (.error e, st3)
                          | .ok (_, st4) =>
                              parse_tokens_list f .identifier (some .comma) st4
                        else (.ok [], st3) : Except ParseError
                          (List Token) × ParserState) with
                      | mk res5 st5 =>
                        have hmid : rbal st5 = rbal st :=
                          (hinner (res5, st5) hsel).trans chain3
                        cases res5 with
                        | error e => exact hmid
                        | ok arguments =>
                          dsimp only
                          cases h6 : Parser.expect [.asKeyword] st5 with
                          | mk res6 st6 =>
                            cases res6 with
                            | error e => exact (rbal_expect h6).trans hmid
                            | ok _ =>
                              dsimp only
                              cases h7 : parse_statements_until f
                                  [.endKeyword] st6 with
                              | mk res7 st7 =>
                                cases res7 with
                                | error e =>
                                    exact (CSU _ st6 h7).trans
                                      ((rbal_expect h6).trans hmid)
                                | ok body =>
                                  dsimp only
                                  cases h8 : Parser.expect [.endKeyword] st7 with
                                  | mk res8 st8 =>
                                    cases res8 <;>
                                      exact (rbal_expect h8).trans
                                        ((CSU _ st6 h7).trans
                                          ((rbal_expect h6).trans hmid))
      -- parse_function_call
      · intro st
        simp only [parse_function_call]
        cases h1 : Parser.expect [.identifier] st with
        | mk res1 st1 =>
          cases res1 with
          | error e => exact rbal_expect h1
          | ok functionName =>
            dsimp only
            cases h2 : parse_function_call_arguments f st1 with
            | mk res2 st2 =>
              cases res2 <;>
                exact (rbal_parse_fc_arguments h2).trans (rbal_expect h1)
      -- parse_return_statement
      · intro st
        simp only [parse_return_statement]
        cases h1 : Parser.expect [.returnKeyword] st with
        | mk res1 st1 =>
          cases res1 with
          | error e => exact rbal_expect h1
          | ok returnToken =>
            dsimp only
            cases hts1 : st1.tokens with
            | nil => exact rbal_expect h1
            | cons t2 rest2 =>
              dsimp only
              by_cases hk : t2.kind = .leftParen
              · rw [if_pos hk]
                cases h2 : parse_grouped_expression f st1 with
                | mk res2 st2 =>
                  cases res2 <;>
                    exact (rbal_parse_grouped h2).trans (rbal_expect h1)
              · rw [if_neg hk]
                exact rbal_expect h1

end NavaCode

namespace NavaCode

/-- The recovery-balance measure is preserved by the top-level parse loop:
statements preserve it and `recover` does not touch the stack. -/
theorem rbal_parse_loop : ∀ (fuel : Nat) (ast : List Statement)
    (diags : List Diagnostic) (st : ParserState),
    rbal (parse_loop fuel ast diags st).2 = rbal st := by
  intro fuel
  induction fuel with
  | zero => intro ast diags st; rfl
  | succ f ih =>
      intro ast diags st
      have CST : ∀ {res st'} (s : ParserState), parse_statement f s = (res, st') →
          rbal st' = rbal s :=
        fun s h => (rbal_snd_eq h).trans ((rbal_statement_family f).1 s)
      simp only [parse_loop]
      cases h1 : parse_statement f st with
      | mk res1 st1 =>
        cases res1 with
        | ok v =>
          cases v with
          | some stmt =>
              dsimp only
              exact (ih _ diags st1).trans (CST st h1)
          | none => exact CST st h1
        | error e =>
          cases e with
          | diag d =>
              dsimp only
              cases h2 : Parser.recover st1 with
              | mk res2 st2 =>
                cases res2 with
                | ok u =>
                    dsimp only
                    exact (ih ast _ st2).trans
                      ((rbal_recover h2).trans (CST st h1))
                | error e2 => exact (rbal_recover h2).trans (CST st h1)
          | tokensExhausted => exact CST st h1
          | numberParsePanic => exact CST st h1
          | outOfFuel => exact CST st h1

/-- `Parser::parse` preserves the recovery-balance measure of the initial
state (which is `0` for `ParserState.new`). -/
theorem rbal_Parser_parse (fuel : Nat) (tokens : List Token) :
    rbal (Parser.parse fuel tokens).2 = 0 := by
  have h0 : rbal (ParserState.new tokens) = 0 := by
    simp [rbal, ParserState.new]
  simp only [Parser.parse]
  cases h1 : parse_loop fuel [] [] (ParserState.new tokens) with
  | mk res1 st1 =>
    cases res1 with
    | ok p =>
        obtain ⟨ast, diags⟩ := p
        dsimp only
        exact ((rbal_snd_eq h1).trans
          (rbal_parse_loop fuel [] [] (ParserState.new tokens))).trans h0
    | error e =>
        exact ((rbal_snd_eq h1).trans
          (rbal_parse_loop fuel [] [] (ParserState.new tokens))).trans h0

/-- C4 counterexample: parsing `if <eof>` fails inside the `if` block and
never meets the synchronizing `end`, so the run finishes with the
`RecoverFromBadBlock(If)` marker still on the recovery stack: the stack is
not always empty when `parse` returns. -/
theorem c4_recovery_stack_not_emptied :
    (Parser.parse 50 [mkToken .ifKeyword "if", eofToken]).2.recovery_states
      = [.recoverFromBadBlock .ifBlock] ∧
    (Parser.parse 50 [mkToken .ifKeyword "if", eofToken]).2.recovery_states
      ≠ [] := by
  have h : (Parser.parse 50 [mkToken .ifKeyword "if", eofToken]).2.recovery_states
      = [.recoverFromBadBlock .ifBlock] := rfl
  exact ⟨h, by rw [h]; simp⟩

/-- C4 (amended): every `pop_recovery_state` removes a marker pushed by an
earlier `push_recovery_state` -- pops never exceed pushes, and the stack
left by a full `Parser::parse` run holds exactly `pushes - pops` markers
(the ghost counters record the push/pop history and influence nothing). -/
theorem c4_recovery_stack_balance (fuel : Nat) (tokens : List Token) :
    (Parser.parse fuel tokens).2.recovery_states.length
        + (Parser.parse fuel tokens).2.ghostPops
      = (Parser.parse fuel tokens).2.ghostPushes ∧
    (Parser.parse fuel tokens).2.ghostPops
      ≤ (Parser.parse fuel tokens).2.ghostPushes := by
  have h := rbal_Parser_parse fuel tokens
  simp only [rbal] at h
  omega

end NavaCode
